import Mathlib

/-!
# telegram: a shallow embedding of `telegram.go`

The Go package is a thin client of the Telegram Bot HTTP API.  Its own code is
`NewBot`, `Call` and four wrappers; everything else is `encoding/json` and
`net/http`.  The embedding keeps the package's code as Lean functions and
represents the two libraries as follows.

* A JSON text is represented by its syntax tree `JSON` (object members in
  document order, duplicates allowed).  A `json.RawMessage` is the subtree it
  was cut from, `none` standing for the nil slice.
* `json.Marshal` / `json.Unmarshal` on the package's record types are written
  out field by field, following the struct tags of the source.
* The network is a value: `http.NewRequest` may reject the URL, `client.Do`
  answers a request with an error or a response body.
* Every run records the events that left the function (`Event`), so that the
  number of requests and decode attempts can be counted.
* A Go `string` is a sequence of bytes that need not be UTF-8.  The string
  fields of the records `User`, `MessageEntity` and `Message`, which
  `json.Marshal` reads and `json.Unmarshal` writes, are `GoString`s and keep the
  bytes that are not UTF-8; a decoded JSON string is always well-formed text
  and is a Lean string, as are the token, the method path and the texts the
  source writes.
* Go `int` is `Int` restricted to 64 bits where the decoder checks the range.
-/

namespace telegram

/-! ## JSON values -/

/-- Syntax tree of a JSON text.  `num` is an integer literal, `frac` any other
number literal (fraction or exponent), kept as its text. -/
inductive JSON where
  | null
  | bool (b : Bool)
  | num (n : Int)
  | frac (raw : String)
  | str (s : String)
  | arr (xs : List JSON)
  | obj (kvs : List (String × JSON))
  deriving Repr, Inhabited

/-- Errors a caller of the package can receive. -/
inductive GoError where
  /-- error of `http.NewRequest` (the URL does not parse) -/
  | request (msg : String)
  /-- error of `client.Do` -/
  | transport (msg : String)
  /-- error made by `fmt.Errorf` in `Call` -/
  | errorf (msg : String)
  /-- `*json.UnmarshalTypeError` -/
  | unmarshalType
  /-- `*json.SyntaxError` or a read error: no JSON value could be read -/
  | malformed
  deriving Repr, DecidableEq, Inhabited

/-- Lower bound of Go `int` on a 64-bit platform. -/
def minInt : Int := -(2 ^ 63)

/-- Upper bound of Go `int` on a 64-bit platform. -/
def maxInt : Int := 2 ^ 63 - 1

/-- Range of Go `int`. -/
def inIntRange (n : Int) : Bool := decide (minInt ≤ n) && decide (n ≤ maxInt)

/-! ## Key folding of `encoding/json`

Object keys are matched to struct fields case-insensitively: the decoder
compares folded names.  All field names of this package are ASCII, and the
only non-ASCII runes that fold onto ASCII letters are U+212A (Kelvin sign)
and U+017F (long s). -/

/-- Folding of one rune, exact on every rune that can meet an ASCII letter. -/
def foldRune (c : Char) : Char :=
  if 'a'.toNat ≤ c.toNat ∧ c.toNat ≤ 'z'.toNat then Char.ofNat (c.toNat - 32)
  else if c.toNat = 0x212A then 'K'
  else if c.toNat = 0x17F then 'S'
  else c

/-- Folded form of a key. -/
def foldName (s : String) : List Char := s.data.map foldRune

/-- Does object key `key` select the struct field tagged `name`? -/
def keyMatches (key name : String) : Bool := decide (foldName key = foldName name)

/-! ## Go strings

`encoding/json` reads a Go string the way `utf8.DecodeRuneInString` does: one
code point for each well-formed UTF-8 encoding and, where the bytes are not
one, a single byte that it replaces by U+FFFD. -/

/-- One step of `utf8.DecodeRuneInString`: a code point, or a byte that is not
part of a well-formed encoding. -/
inductive GoRune where
  | rune (c : Char)
  | bad (byte : Nat)
  deriving Repr, DecidableEq, Inhabited

/-- A Go `string`, as the sequence `utf8.DecodeRuneInString` reads from it. -/
abbrev GoString := List GoRune

/-- The code point `json.Marshal` writes for one step: the code point itself,
U+FFFD for a byte that is not UTF-8. -/
def GoRune.coerced : GoRune → Char
  | .rune c => c
  | .bad _ => Char.ofNat 0xFFFD

/-- The text of the JSON string `json.Marshal` writes for a Go string. -/
def GoString.toText (g : GoString) : String := String.mk (g.map GoRune.coerced)

/-- The Go string the decoder makes of a JSON string. -/
def GoString.ofText (s : String) : GoString := s.data.map GoRune.rune

/-- Is the Go string well-formed UTF-8? -/
def GoString.valid (g : GoString) : Bool :=
  g.all fun r =>
    match r with
    | .rune _ => true
    | .bad _ => false

/-! ## Storing a JSON value into a Go variable

Each function returns the new value of the variable and whether a type error
was recorded (`d.saveError`); the decoder goes on after such an error. -/

/-- Decoding into a `bool` variable. -/
def storeBool (cur : Bool) : JSON → Bool × Bool
  | .null => (cur, false)
  | .bool b => (b, false)
  | _ => (cur, true)

/-- Decoding into an `int` variable. -/
def storeInt (cur : Int) : JSON → Int × Bool
  | .null => (cur, false)
  | .num n => if inIntRange n then (n, false) else (cur, true)
  | _ => (cur, true)

/-- Decoding into a `string` variable that only the decoder writes. -/
def storeString (cur : String) : JSON → String × Bool
  | .null => (cur, false)
  | .str s => (s, false)
  | _ => (cur, true)

/-- Decoding into a `string` variable. -/
def storeGoString (cur : GoString) : JSON → GoString × Bool
  | .null => (cur, false)
  | .str s => (GoString.ofText s, false)
  | _ => (cur, true)

/-! ## Data model of the source -/

structure TelegramBotConfig where
  API : String
  Token : String
  deriving Repr, DecidableEq, Inhabited

structure TelegramBotResponse where
  Ok : Bool := false
  Code : Int := 0
  Description : String := ""
  Result : Option JSON := none
  deriving Repr, Inhabited

/-- An HTTP request as `Call` builds it. -/
structure Request where
  verb : String
  url : String
  header : List (String × String)
  payload : Option JSON
  deriving Repr, Inhabited

/-- Body of an HTTP response as the envelope decoder sees it: either no JSON
value can be read from it (empty, truncated, not JSON, read error), or its
first JSON value is `j`. -/
inductive Body where
  | unreadable
  | value (j : JSON)
  deriving Repr, Inhabited

/-- The `*http.Client`: what `Do` answers to a request. -/
structure Client where
  Do : Request → Except GoError Body

/-- The part of `net/http` that `http.NewRequest` consults: the error of
parsing a URL, if any. -/
structure Net where
  parseURL : String → Option GoError

structure TelegramBot where
  config : Option TelegramBotConfig
  client : Option Client

/-- Things a run does that are visible outside the function. -/
inductive Event where
  | sent (req : Request)
  | decoded (body : Body)
  deriving Repr, Inhabited

/-- A run of a function: the events in order, and the returned values, `none`
when the run ended in a panic (nil pointer dereference). -/
structure Run (α : Type) where
  events : List Event
  out : Option α

/-- Number of requests handed to the transport during a run. -/
def requestCount : List Event → Nat
  | [] => 0
  | .sent _ :: es => requestCount es + 1
  | .decoded _ :: es => requestCount es

/-- Number of envelope decodes attempted during a run. -/
def decodeCount : List Event → Nat
  | [] => 0
  | .sent _ :: es => decodeCount es
  | .decoded _ :: es => decodeCount es + 1

structure User where
  ID : Int := 0
  IsBot : Bool := false
  FirstName : GoString := []
  LastName : GoString := []
  UserName : GoString := []
  LanguageCode : GoString := []
  IsPremium : Bool := false
  AddedToAttachmentMenu : Bool := false
  CanJoinGroups : Bool := false
  CanReadAllGroupMessages : Bool := false
  SupportsInlineQueries : Bool := false
  deriving Repr, DecidableEq, Inhabited

/-- The `User` field is a `*User`: `none` is the nil pointer.  `Type_` is the
field `Type` of the source (a reserved word here). -/
structure MessageEntity where
  Type_ : GoString := []
  Offset : Int := 0
  Length : Int := 0
  URL : GoString := []
  User : Option User := none
  deriving Repr, DecidableEq, Inhabited

/-- The `Entities` field is a `[]*MessageEntity`: the list holds the pointed-to
records, `none` for a nil element.  A nil slice and an empty slice are both
the empty list. -/
structure Message where
  ChatId : GoString := []
  MessageThreadId : GoString := []
  Text : GoString := []
  ParseMode : GoString := []
  Entities : List (Option MessageEntity) := []
  DisableWebPageView : Bool := false
  DisableNotification : Bool := false
  ProtectContent : Bool := false
  ReplyToMessageId : Int := 0
  AllowSendingWithReply : Bool := false
  deriving Repr, DecidableEq, Inhabited

/-! ## `json.Marshal` on the records of the package -/

/-- Members of a field tagged `omitempty`: dropped when the value is empty. -/
def omitEmpty (key : String) (empty : Bool) (v : JSON) : List (String × JSON) :=
  if empty then [] else [(key, v)]

def marshalUser (u : User) : JSON :=
  .obj [("id", .num u.ID), ("is_bot", .bool u.IsBot),
    ("first_name", .str (GoString.toText u.FirstName)),
    ("last_name", .str (GoString.toText u.LastName)),
    ("username", .str (GoString.toText u.UserName)),
    ("language_code", .str (GoString.toText u.LanguageCode)),
    ("is_premium", .bool u.IsPremium),
    ("added_to_attachment_menu", .bool u.AddedToAttachmentMenu),
    ("can_join_groups", .bool u.CanJoinGroups),
    ("can_read_all_group_messages", .bool u.CanReadAllGroupMessages),
    ("supports_inline_queries", .bool u.SupportsInlineQueries)]

def marshalUserPtr : Option User → JSON
  | none => .null
  | some u => marshalUser u

def marshalEntity (e : MessageEntity) : JSON :=
  .obj ([("type", .str (GoString.toText e.Type_)), ("offset", .num e.Offset), ("length", .num e.Length)]
    ++ omitEmpty "url" e.URL.isEmpty (.str (GoString.toText e.URL))
    ++ omitEmpty "user" e.User.isNone (marshalUserPtr e.User))

def marshalEntityPtr : Option MessageEntity → JSON
  | none => .null
  | some e => marshalEntity e

def marshalMessage (m : Message) : JSON :=
  .obj ([("chat_id", .str (GoString.toText m.ChatId))]
    ++ omitEmpty "message_thread_id" m.MessageThreadId.isEmpty
        (.str (GoString.toText m.MessageThreadId))
    ++ [("text", .str (GoString.toText m.Text))]
    ++ omitEmpty "parse_mode" m.ParseMode.isEmpty (.str (GoString.toText m.ParseMode))
    ++ omitEmpty "entities" m.Entities.isEmpty (.arr (m.Entities.map marshalEntityPtr))
    ++ omitEmpty "disable_web_page_preview" (!m.DisableWebPageView) (.bool m.DisableWebPageView)
    ++ omitEmpty "disable_notification" (!m.DisableNotification) (.bool m.DisableNotification)
    ++ omitEmpty "protect_content" (!m.ProtectContent) (.bool m.ProtectContent)
    ++ omitEmpty "reply_to_message_id" (m.ReplyToMessageId == 0) (.num m.ReplyToMessageId)
    ++ omitEmpty "allow_sending_with_reply" (!m.AllowSendingWithReply)
        (.bool m.AllowSendingWithReply))

/-- Lexicographic order on code points. -/
def lexLt : List Nat → List Nat → Bool
  | _, [] => false
  | [], _ :: _ => true
  | a :: as, b :: bs => decide (a < b) || (decide (a = b) && lexLt as bs)

/-- The order `json.Marshal` sorts map keys by: bytewise on the UTF-8 text,
which is the order of the code points. -/
def keyLt (a b : String) : Bool := lexLt (a.data.map Char.toNat) (b.data.map Char.toNat)

/-- A Go `map[string]interface{}` whose values are strings, kept as the list of
its entries in increasing key order (the order `json.Marshal` writes them). -/
def mapInsert (k v : String) : List (String × String) → List (String × String)
  | [] => [(k, v)]
  | (k', v') :: rest =>
    if keyLt k k' then (k, v) :: (k', v') :: rest
    else if k = k' then (k, v) :: rest
    else (k', v') :: mapInsert k v rest

/-- A map literal: the entries are inserted in the order they are written. -/
def mapLiteral (entries : List (String × String)) : List (String × String) :=
  entries.foldl (fun m kv => mapInsert kv.1 kv.2 m) []

/-- The values passed as `params any`.  `other` is any other Go value, given
by what `json.Marshal` makes of it (`none` when it returns an error). -/
inductive Params where
  | nil
  | message (m : Message)
  | stringMap (entries : List (String × String))
  | other (marshalled : Option JSON)
  deriving Repr, Inhabited

/-- The `payload` of `payload, _ := json.Marshal(params)`; `none` is the nil
slice left by a failed marshal. -/
def Marshal : Params → Option JSON
  | .nil => some .null
  | .message m => some (marshalMessage m)
  | .stringMap entries => some (.obj (entries.map fun kv => (kv.1, .str kv.2)))
  | .other j => j

/-! ## `json.Unmarshal` on the records of the package

Decoding writes into an existing variable: a member whose key matches no field
is skipped, a field no member names keeps the value it had. -/

/-- Decoding a JSON value into a struct variable, `set` storing one member. -/
def decodeStruct {α : Type} (set : α → String → JSON → α × Bool) (cur : α) : JSON → α × Bool
  | .null => (cur, false)
  | .obj kvs =>
    kvs.foldl (fun acc kv => let r := set acc.1 kv.1 kv.2; (r.1, acc.2 || r.2)) (cur, false)
  | _ => (cur, true)

/-- Decoding into a pointer variable: `null` makes it nil, any other value is
decoded into the record pointed to, allocated first when the pointer is nil. -/
def storePtr {α : Type} (dec : α → JSON → α × Bool) (zero : α) (cur : Option α) :
    JSON → Option α × Bool
  | .null => (none, false)
  | v => let r := dec (cur.getD zero) v; (some r.1, r.2)

/-- Decoding the elements of an array into a slice of pointers: element `i`
is decoded into the `i`-th existing element when there is one, else into a
nil pointer. -/
def decodeElems {α : Type} (dec : α → JSON → α × Bool) (zero : α) :
    List (Option α) → List JSON → List (Option α) × Bool
  | _, [] => ([], false)
  | cur, x :: xs =>
    let r := storePtr dec zero (cur.head?.getD none) x
    let rs := decodeElems dec zero cur.tail xs
    (r.1 :: rs.1, r.2 || rs.2)

/-- Decoding into a slice of pointers. -/
def storeSlice {α : Type} (dec : α → JSON → α × Bool) (zero : α) (cur : List (Option α)) :
    JSON → List (Option α) × Bool
  | .null => ([], false)
  | .arr xs => decodeElems dec zero cur xs
  | _ => (cur, true)

def User.setField (u : User) (key : String) (v : JSON) : User × Bool :=
  if keyMatches key "id" then
    let r := storeInt u.ID v; ({ u with ID := r.1 }, r.2)
  else if keyMatches key "is_bot" then
    let r := storeBool u.IsBot v; ({ u with IsBot := r.1 }, r.2)
  else if keyMatches key "first_name" then
    let r := storeGoString u.FirstName v; ({ u with FirstName := r.1 }, r.2)
  else if keyMatches key "last_name" then
    let r := storeGoString u.LastName v; ({ u with LastName := r.1 }, r.2)
  else if keyMatches key "username" then
    let r := storeGoString u.UserName v; ({ u with UserName := r.1 }, r.2)
  else if keyMatches key "language_code" then
    let r := storeGoString u.LanguageCode v; ({ u with LanguageCode := r.1 }, r.2)
  else if keyMatches key "is_premium" then
    let r := storeBool u.IsPremium v; ({ u with IsPremium := r.1 }, r.2)
  else if keyMatches key "added_to_attachment_menu" then
    let r := storeBool u.AddedToAttachmentMenu v; ({ u with AddedToAttachmentMenu := r.1 }, r.2)
  else if keyMatches key "can_join_groups" then
    let r := storeBool u.CanJoinGroups v; ({ u with CanJoinGroups := r.1 }, r.2)
  else if keyMatches key "can_read_all_group_messages" then
    let r := storeBool u.CanReadAllGroupMessages v
    ({ u with CanReadAllGroupMessages := r.1 }, r.2)
  else if keyMatches key "supports_inline_queries" then
    let r := storeBool u.SupportsInlineQueries v; ({ u with SupportsInlineQueries := r.1 }, r.2)
  else (u, false)

def decodeUser (cur : User) (v : JSON) : User × Bool := decodeStruct User.setField cur v

def MessageEntity.setField (e : MessageEntity) (key : String) (v : JSON) :
    MessageEntity × Bool :=
  if keyMatches key "type" then
    let r := storeGoString e.Type_ v; ({ e with Type_ := r.1 }, r.2)
  else if keyMatches key "offset" then
    let r := storeInt e.Offset v; ({ e with Offset := r.1 }, r.2)
  else if keyMatches key "length" then
    let r := storeInt e.Length v; ({ e with Length := r.1 }, r.2)
  else if keyMatches key "url" then
    let r := storeGoString e.URL v; ({ e with URL := r.1 }, r.2)
  else if keyMatches key "user" then
    let r := storePtr decodeUser {} e.User v; ({ e with User := r.1 }, r.2)
  else (e, false)

def decodeEntity (cur : MessageEntity) (v : JSON) : MessageEntity × Bool :=
  decodeStruct MessageEntity.setField cur v

def Message.setField (m : Message) (key : String) (v : JSON) : Message × Bool :=
  if keyMatches key "chat_id" then
    let r := storeGoString m.ChatId v; ({ m with ChatId := r.1 }, r.2)
  else if keyMatches key "message_thread_id" then
    let r := storeGoString m.MessageThreadId v; ({ m with MessageThreadId := r.1 }, r.2)
  else if keyMatches key "text" then
    let r := storeGoString m.Text v; ({ m with Text := r.1 }, r.2)
  else if keyMatches key "parse_mode" then
    let r := storeGoString m.ParseMode v; ({ m with ParseMode := r.1 }, r.2)
  else if keyMatches key "entities" then
    let r := storeSlice decodeEntity {} m.Entities v; ({ m with Entities := r.1 }, r.2)
  else if keyMatches key "disable_web_page_preview" then
    let r := storeBool m.DisableWebPageView v; ({ m with DisableWebPageView := r.1 }, r.2)
  else if keyMatches key "disable_notification" then
    let r := storeBool m.DisableNotification v; ({ m with DisableNotification := r.1 }, r.2)
  else if keyMatches key "protect_content" then
    let r := storeBool m.ProtectContent v; ({ m with ProtectContent := r.1 }, r.2)
  else if keyMatches key "reply_to_message_id" then
    let r := storeInt m.ReplyToMessageId v; ({ m with ReplyToMessageId := r.1 }, r.2)
  else if keyMatches key "allow_sending_with_reply" then
    let r := storeBool m.AllowSendingWithReply v; ({ m with AllowSendingWithReply := r.1 }, r.2)
  else (m, false)

def decodeMessage (cur : Message) (v : JSON) : Message × Bool :=
  decodeStruct Message.setField cur v

/-- `json.Unmarshal(data, &x)`: the variable afterwards and the returned error.
The nil `data` is not a JSON text. -/
def Unmarshal {α : Type} (dec : α → JSON → α × Bool) (data : Option JSON) (cur : α) :
    α × Option GoError :=
  match data with
  | none => (cur, some .malformed)
  | some j => let r := dec cur j; (r.1, if r.2 then some .unmarshalType else none)

def TelegramBotResponse.setField (out : TelegramBotResponse) (key : String) (v : JSON) :
    TelegramBotResponse × Bool :=
  if keyMatches key "ok" then
    let r := storeBool out.Ok v; ({ out with Ok := r.1 }, r.2)
  else if keyMatches key "error_code" then
    let r := storeInt out.Code v; ({ out with Code := r.1 }, r.2)
  else if keyMatches key "description" then
    let r := storeString out.Description v; ({ out with Description := r.1 }, r.2)
  else if keyMatches key "result" then
    ({ out with Result := some v }, false)
  else (out, false)

/-- `json.NewDecoder(body).Decode(&out)`: the variable afterwards and the
returned error. -/
def Decode (body : Body) (out : TelegramBotResponse) : TelegramBotResponse × Option GoError :=
  match body with
  | .unreadable => (out, some .malformed)
  | .value j =>
    let r := decodeStruct TelegramBotResponse.setField out j
    (r.1, if r.2 then some .unmarshalType else none)

/-! ## The functions of the package -/

/-- `http.NewRequest(verb, url, body)` for a valid verb: fails exactly when the
URL does not parse. -/
def NewRequest (net : Net) (verb url : String) (payload : Option JSON) :
    Except GoError Request :=
  match net.parseURL url with
  | some err => .error err
  | none => .ok { verb := verb, url := url, header := [], payload := payload }

/-- `req.Header.Add(key, value)`. -/
def headerAdd (req : Request) (key value : String) : Request :=
  { req with header := req.header ++ [(key, value)] }

/-- `fmt.Errorf("error: %d %s", code, description)`. -/
def errorf (code : Int) (description : String) : GoError :=
  .errorf ("error: " ++ toString code ++ " " ++ description)

/-- `NewBot(config)`; `defaultClient` is `http.DefaultClient`. -/
def NewBot (defaultClient : Client) (config : Option TelegramBotConfig) : TelegramBot :=
  { config := config, client := some defaultClient }

/-- `(bot *TelegramBot) Call(method, params) (result, err)`. -/
def Call (net : Net) (bot : TelegramBot) (method : String) (params : Params) :
    Run (Option JSON × Option GoError) :=
  match bot.config with
  | none => { events := [], out := none }
  | some config =>
    let url := "https://api.telegram.org/bot" ++ config.Token ++ method
    let payload := Marshal params
    match NewRequest net "POST" url payload with
    | .error err => { events := [], out := some (none, some err) }
    | .ok req0 =>
      let req := headerAdd req0 "content-type" "application/json"
      match bot.client with
      | none => { events := [], out := none }
      | some client =>
        match client.Do req with
        | .error err => { events := [.sent req], out := some (none, some err) }
        | .ok body =>
          let out := (Decode body {}).1
          let result := out.Result
          if !out.Ok then
            { events := [.sent req, .decoded body],
              out := some (none, some (errorf out.Code out.Description)) }
          else
            { events := [.sent req, .decoded body], out := some (result, none) }

/-- `(bot *TelegramBot) GetMe() (user, err)`. -/
def GetMe (net : Net) (bot : TelegramBot) : Run (User × Option GoError) :=
  let r := Call net bot "/getMe" .nil
  match r.out with
  | none => { events := r.events, out := none }
  | some (_, some err) => { events := r.events, out := some ({}, some err) }
  | some (data, none) => { events := r.events, out := some (Unmarshal decodeUser data {}) }

/-- `(bot *TelegramBot) SendMessage(message) (err)`.  Besides the returned
error the run gives the value of the variable `message` at the return: the
record the result was decoded into.  The argument is passed by value: the
caller keeps its own copy of the scalar fields and shares with this variable
the entity records behind the pointers of `Entities`. -/
def SendMessage (net : Net) (bot : TelegramBot) (message : Message) :
    Run (Message × Option GoError) :=
  let r := Call net bot "/sendMessage" (.message message)
  match r.out with
  | none => { events := r.events, out := none }
  | some (_, some err) => { events := r.events, out := some (message, some err) }
  | some (data, none) =>
    { events := r.events, out := some (Unmarshal decodeMessage data message) }

/-- `(bot *TelegramBot) AnswerCallbackQuery(callbackQueryId, text) error`. -/
def AnswerCallbackQuery (net : Net) (bot : TelegramBot) (callbackQueryId text : String) :
    Run (Option GoError) :=
  let params := Params.stringMap
    (mapLiteral [("callback_query_id", callbackQueryId), ("text", text)])
  let r := Call net bot "/answerCallbackQuery" params
  { events := r.events, out := r.out.map fun p => p.2 }

/-- `(bot *TelegramBot) GetUpdates()`. -/
def GetUpdates (net : Net) (bot : TelegramBot) : Run Unit :=
  let r := Call net bot "/getUpdates" .nil
  { events := r.events, out := r.out.map fun _ => () }

/-! ## Definitions used to state the properties -/

/-- The request `Call` is expected to build for a configuration, a method path
and a parameter value. -/
def expectedRequest (config : TelegramBotConfig) (method : String) (params : Params) :
    Request :=
  { verb := "POST"
    url := "https://api.telegram.org/bot" ++ config.Token ++ method
    header := [("content-type", "application/json")]
    payload := Marshal params }

/-- The value of the last member of an object whose key selects field `name`:
the one the decoder leaves in the field. -/
def lastMatch (kvs : List (String × JSON)) (name : String) : Option JSON :=
  kvs.foldl (fun acc kv => if keyMatches kv.1 name then some kv.2 else acc) none

/-- A transport that answers every request with the same body. -/
def replyClient (body : Body) : Client := { Do := fun _ => .ok body }

/-- A transport that fails on every request with the same error. -/
def failClient (err : GoError) : Client := { Do := fun _ => .error err }

/-- A `net/http` on which every URL parses. -/
def laxNet : Net := { parseURL := fun _ => none }

/-- The first check of `url.Parse`: an ASCII control character is in the URL. -/
def stringContainsCTLByte (s : String) : Bool :=
  s.data.any fun c => decide (c.toNat < 0x20) || decide (c.toNat = 0x7f)

/-- A `net/http` that rejects the URLs holding a control character, as
`url.Parse` does; the message is the cause the returned error carries. -/
def ctlNet : Net :=
  { parseURL := fun url =>
      if stringContainsCTLByte url then
        some (.request "net/url: invalid control character in URL")
      else none }

/-- A configuration with token `T`. -/
def sampleConfig : TelegramBotConfig := { API := "https://api.telegram.org", Token := "T" }

/-- An error envelope that also carries a result. -/
def sampleErrorBody : Body :=
  .value (.obj [("ok", .bool false), ("error_code", .num 400),
    ("description", .str "Bad Request"), ("result", .num 5)])

/-- A success envelope whose result is the number 5. -/
def sampleOkBody : Body := .value (.obj [("ok", .bool true), ("result", .num 5)])

/-- An envelope with `ok=true` and a field of the wrong type. -/
def sampleMistypedBody : Body :=
  .value (.obj [("ok", .bool true), ("error_code", .str "x"), ("result", .num 5)])

/-- A configuration whose token holds the control character DEL. -/
def ctlConfig : TelegramBotConfig := { API := "", Token := "\x7f" }

/-- The JSON types of the scalar fields of the records. -/
inductive Kind where
  | bool
  | int
  | string
  deriving Repr, DecidableEq

/-- Is the JSON value of the type a field of that kind takes (an integer must
fit a Go `int`)? -/
def hasKind : Kind → JSON → Bool
  | .bool, .bool _ => true
  | .int, .num n => inIntRange n
  | .string, .str _ => true
  | _, _ => false

/-- The fields of `User`: JSON name and type, from the struct tags. -/
def userSchema : List (String × Kind) :=
  [("id", .int), ("is_bot", .bool), ("first_name", .string), ("last_name", .string),
    ("username", .string), ("language_code", .string), ("is_premium", .bool),
    ("added_to_attachment_menu", .bool), ("can_join_groups", .bool),
    ("can_read_all_group_messages", .bool), ("supports_inline_queries", .bool)]

/-- A member is typed for a schema when its value has the type of every field
its key selects. -/
def memberTyped (schema : List (String × Kind)) (kv : String × JSON) : Bool :=
  schema.all fun e => !keyMatches kv.1 e.1 || hasKind e.2 kv.2

/-- The boolean a field holds after decoding: the member's value, else `d`. -/
def boolOr (d : Bool) : Option JSON → Bool
  | some (.bool b) => b
  | _ => d

/-- The integer a field holds after decoding: the member's value, else `d`. -/
def intOr (d : Int) : Option JSON → Int
  | some (.num n) => n
  | _ => d

/-- The string a field holds after decoding: the member's value, else `d`. -/
def strOr (d : GoString) : Option JSON → GoString
  | some (.str s) => GoString.ofText s
  | _ => d

/-- The `User` an object describes: each field takes the value of the last
member that names it, and its zero value when no member does. -/
def userOf (kvs : List (String × JSON)) : User :=
  { ID := intOr 0 (lastMatch kvs "id")
    IsBot := boolOr false (lastMatch kvs "is_bot")
    FirstName := strOr [] (lastMatch kvs "first_name")
    LastName := strOr [] (lastMatch kvs "last_name")
    UserName := strOr [] (lastMatch kvs "username")
    LanguageCode := strOr [] (lastMatch kvs "language_code")
    IsPremium := boolOr false (lastMatch kvs "is_premium")
    AddedToAttachmentMenu := boolOr false (lastMatch kvs "added_to_attachment_menu")
    CanJoinGroups := boolOr false (lastMatch kvs "can_join_groups")
    CanReadAllGroupMessages := boolOr false (lastMatch kvs "can_read_all_group_messages")
    SupportsInlineQueries := boolOr false (lastMatch kvs "supports_inline_queries") }

/-- The members of a result describing a bot. -/
def sampleUserMembers : List (String × JSON) :=
  [("id", .num 42), ("is_bot", .bool true), ("first_name", .str "Bot")]

/-- A success envelope whose result describes a bot. -/
def sampleUserBody : Body :=
  .value (.obj [("ok", .bool true), ("result", .obj sampleUserMembers)])

/-- The envelope `{ok:true}`, without a result. -/
def sampleBareOkBody : Body := .value (.obj [("ok", .bool true)])

/-- The integers of a `User` fit a Go `int`. -/
def userInRange (u : User) : Bool := inIntRange u.ID

/-- The integers of a `MessageEntity`, and of the user it points to, fit a Go
`int`. -/
def entityInRange (e : MessageEntity) : Bool :=
  inIntRange e.Offset && inIntRange e.Length &&
    (match e.User with
     | none => true
     | some u => userInRange u)

/-- The integers of a `Message`, and of the records it points to, fit a Go
`int`: every value of the Go type satisfies this. -/
def messageInRange (m : Message) : Bool :=
  inIntRange m.ReplyToMessageId &&
    m.Entities.all fun p =>
      match p with
      | none => true
      | some e => entityInRange e

/-- The message `{chat_id:"123", text:"hi"}`. -/
def sampleMessage : Message :=
  { ChatId := GoString.ofText "123", Text := GoString.ofText "hi" }

/-- The envelope that echoes a message back as its result. -/
def echoBody (m : Message) : Body :=
  .value (.obj [("ok", .bool true), ("result", marshalMessage m)])

/-- A message with two entities. -/
def sampleEntityMessage : Message :=
  { ChatId := GoString.ofText "123", Text := GoString.ofText "hi there",
    Entities := [some { Type_ := GoString.ofText "bold", Offset := 0, Length := 2 },
                 some { Type_ := GoString.ofText "text_link", Offset := 3, Length := 5,
                        URL := GoString.ofText "https://t.me" }] }

/-- The strings of a `User` are well-formed UTF-8. -/
def userValid (u : User) : Bool :=
  GoString.valid u.FirstName && GoString.valid u.LastName && GoString.valid u.UserName &&
    GoString.valid u.LanguageCode

/-- The strings of a `MessageEntity`, and of the user it points to, are
well-formed UTF-8. -/
def entityValid (e : MessageEntity) : Bool :=
  GoString.valid e.Type_ && GoString.valid e.URL &&
    (match e.User with
     | none => true
     | some u => userValid u)

/-- The strings of a `Message`, and of the records it points to, are
well-formed UTF-8. -/
def messageValid (m : Message) : Bool :=
  GoString.valid m.ChatId && GoString.valid m.MessageThreadId && GoString.valid m.Text &&
    GoString.valid m.ParseMode &&
    m.Entities.all fun p =>
      match p with
      | none => true
      | some e => entityValid e

/-- A message with one entity whose type is the single byte `0xFF`, which is
not UTF-8. -/
def badTypeMessage : Message :=
  { ChatId := GoString.ofText "123", Text := GoString.ofText "hi",
    Entities := [some { Type_ := [.bad 0xFF], Offset := 0, Length := 2 }] }

/-- The `User` the decoder makes of the serialization of a `User`: every
string has gone through `json.Marshal`. -/
def coerceUser (u : User) : User :=
  { u with
    FirstName := GoString.ofText (GoString.toText u.FirstName)
    LastName := GoString.ofText (GoString.toText u.LastName)
    UserName := GoString.ofText (GoString.toText u.UserName)
    LanguageCode := GoString.ofText (GoString.toText u.LanguageCode) }

/-! ## Theorems -/

/-- What `Call` does once the bot has a configuration and a client and the URL
parses: one request, then the transport decides. -/
theorem Call_unfold (net : Net) (config : TelegramBotConfig) (client : Client)
    (method : String) (params : Params)
    (hurl : net.parseURL ("https://api.telegram.org/bot" ++ config.Token ++ method) = none) :
    Call net { config := some config, client := some client } method params =
      match client.Do (expectedRequest config method params) with
      | .error err =>
        { events := [.sent (expectedRequest config method params)],
          out := some (none, some err) }
      | .ok body =>
        if !(Decode body {}).1.Ok then
          { events := [.sent (expectedRequest config method params), .decoded body],
            out := some (none, some (errorf (Decode body {}).1.Code
              (Decode body {}).1.Description)) }
        else
          { events := [.sent (expectedRequest config method params), .decoded body],
            out := some ((Decode body {}).1.Result, none) } := by
  simp only [Call, NewRequest, hurl, headerAdd, expectedRequest, List.nil_append]

/-- What `Call` does when the URL does not parse: no request, the error of
`http.NewRequest`. -/
theorem Call_bad_url (net : Net) (config : TelegramBotConfig) (client : Option Client)
    (method : String) (params : Params) (err : GoError)
    (hurl : net.parseURL ("https://api.telegram.org/bot" ++ config.Token ++ method)
      = some err) :
    Call net { config := some config, client := client } method params =
      { events := [], out := some (none, some err) } := by
  simp only [Call, NewRequest, hurl]

/-- C1: when the decoded envelope has `ok=false`, code `c` and description `d`,
`Call` returns a nil result and the error `error: <c> <d>`, whatever the
envelope holds in `result`. -/
theorem Call_error_envelope (net : Net) (config : TelegramBotConfig) (client : Client)
    (method : String) (params : Params) (body : Body)
    (hurl : net.parseURL ("https://api.telegram.org/bot" ++ config.Token ++ method) = none)
    (hdo : client.Do (expectedRequest config method params) = .ok body)
    (hok : (Decode body {}).1.Ok = false) :
    (Call net (NewBot client (some config)) method params).out =
      some (none, some (.errorf ("error: " ++ toString (Decode body {}).1.Code ++ " "
        ++ (Decode body {}).1.Description))) := by
  rw [NewBot, Call_unfold net config client method params hurl, hdo]
  simp [hok, errorf]

/-- C1 at `{ok:false, error_code:400, description:"Bad Request", result:5}`. -/
theorem Call_error_envelope_witness :
    (Decode sampleErrorBody {}).1.Result = some (.num 5) ∧
    (Call laxNet (NewBot (replyClient sampleErrorBody) (some sampleConfig)) "/getMe" .nil).out =
      some (none, some (.errorf "error: 400 Bad Request")) :=
  ⟨rfl, Call_error_envelope laxNet sampleConfig (replyClient sampleErrorBody) "/getMe" .nil
    sampleErrorBody rfl rfl rfl⟩

/-- A key selects at most one of two fields whose folded names differ. -/
theorem keyMatches_other {key a b : String} (hab : foldName a ≠ foldName b)
    (ha : keyMatches key a = true) : keyMatches key b = false := by
  simp only [keyMatches, decide_eq_true_eq, decide_eq_false_iff_not] at ha ⊢
  intro hb
  exact hab (ha.symm.trans hb)

/-- The `Result` field after one member is stored. -/
theorem setField_Result (out : TelegramBotResponse) (key : String) (v : JSON) :
    (out.setField key v).1.Result =
      if keyMatches key "result" then some v else out.Result := by
  unfold TelegramBotResponse.setField
  by_cases h1 : keyMatches key "ok" = true
  · simp [h1, (keyMatches_other (b := "result") (by decide) h1)]
  by_cases h2 : keyMatches key "error_code" = true
  · simp [h1, h2, (keyMatches_other (b := "result") (by decide) h2)]
  by_cases h3 : keyMatches key "description" = true
  · simp [h1, h2, h3, (keyMatches_other (b := "result") (by decide) h3)]
  by_cases h4 : keyMatches key "result" = true
  · simp [h1, h2, h3, h4]
  · simp [h1, h2, h3, h4]

/-- The `Result` field after all members are stored. -/
theorem foldl_setField_Result (kvs : List (String × JSON)) (acc : TelegramBotResponse × Bool) :
    (kvs.foldl (fun acc kv =>
        let r := TelegramBotResponse.setField acc.1 kv.1 kv.2; (r.1, acc.2 || r.2)) acc).1.Result
      = kvs.foldl (fun r kv => if keyMatches kv.1 "result" then some kv.2 else r)
          acc.1.Result := by
  induction kvs generalizing acc with
  | nil => rfl
  | cons kv rest ih =>
    simp only [List.foldl_cons]
    rw [ih]
    simp only [setField_Result]

/-- The envelope of an object body holds in `Result` the last `result` member. -/
theorem Decode_Result (kvs : List (String × JSON)) :
    (Decode (.value (.obj kvs)) {}).1.Result = lastMatch kvs "result" := by
  simp only [Decode, decodeStruct, lastMatch]
  exact foldl_setField_Result kvs ({}, false)

/-- With no member of that name there is no last one. -/
theorem lastMatch_none (kvs : List (String × JSON)) (name : String)
    (h : ∀ kv ∈ kvs, keyMatches kv.1 name = false) : lastMatch kvs name = none := by
  unfold lastMatch
  generalize (none : Option JSON) = a
  induction kvs generalizing a with
  | nil => rfl
  | cons kv rest ih =>
    simp only [List.foldl_cons, h kv (List.mem_cons_self _ _)]
    exact ih (fun x hx => h x (List.mem_cons_of_mem _ hx)) a

/-- The last member of that name is the one no later member repeats. -/
theorem lastMatch_last (pre post : List (String × JSON)) (key name : String) (v : JSON)
    (hk : keyMatches key name = true)
    (h : ∀ kv ∈ post, keyMatches kv.1 name = false) :
    lastMatch (pre ++ (key, v) :: post) name = some v := by
  unfold lastMatch
  rw [List.foldl_append, List.foldl_cons]
  simp only [hk, if_true]
  generalize (some v : Option JSON) = a
  induction post generalizing a with
  | nil => rfl
  | cons kv rest ih =>
    simp only [List.foldl_cons, h kv (List.mem_cons_self _ _)]
    exact ih (fun x hx => h x (List.mem_cons_of_mem _ hx)) a

/-- C2: when the envelope decodes with `ok=true`, `Call` returns the `result`
member as it stands in the body (the last one when the key is repeated) with a
nil error, and a nil result with a nil error when the body has no such member. -/
theorem Call_ok_envelope (net : Net) (config : TelegramBotConfig) (client : Client)
    (method : String) (params : Params) (body : Body)
    (hurl : net.parseURL ("https://api.telegram.org/bot" ++ config.Token ++ method) = none)
    (hdo : client.Do (expectedRequest config method params) = .ok body)
    (hok : (Decode body {}).1.Ok = true) :
    (Call net (NewBot client (some config)) method params).out =
        some ((Decode body {}).1.Result, none) ∧
    (∀ pre post key R, body = .value (.obj (pre ++ (key, R) :: post)) →
      keyMatches key "result" = true →
      (∀ kv ∈ post, keyMatches kv.1 "result" = false) →
      (Call net (NewBot client (some config)) method params).out = some (some R, none)) ∧
    (∀ kvs, body = .value (.obj kvs) → (∀ kv ∈ kvs, keyMatches kv.1 "result" = false) →
      (Call net (NewBot client (some config)) method params).out = some (none, none)) := by
  have hcall : (Call net (NewBot client (some config)) method params).out =
      some ((Decode body {}).1.Result, none) := by
    rw [NewBot, Call_unfold net config client method params hurl, hdo]
    simp [hok]
  refine ⟨hcall, ?_, ?_⟩
  · intro pre post key R hb hk hpost
    rw [hcall, hb, Decode_Result, lastMatch_last pre post key "result" R hk hpost]
  · intro kvs hb hkvs
    rw [hcall, hb, Decode_Result, lastMatch_none kvs "result" hkvs]

/-- C2 at `{ok:true, result:5}`. -/
theorem Call_ok_envelope_witness :
    (Call laxNet (NewBot (replyClient sampleOkBody) (some sampleConfig)) "/getMe" .nil).out =
      some (some (.num 5), none) :=
  (Call_ok_envelope laxNet sampleConfig (replyClient sampleOkBody) "/getMe" .nil
    sampleOkBody rfl rfl rfl).1

/-- C3: when `client.Do` returns the error `e`, `Call` returns `e` with a nil
result after the one request, decodes nothing and does not panic. -/
theorem Call_transport_error (net : Net) (config : TelegramBotConfig) (client : Client)
    (method : String) (params : Params) (e : GoError)
    (hurl : net.parseURL ("https://api.telegram.org/bot" ++ config.Token ++ method) = none)
    (hdo : client.Do (expectedRequest config method params) = .error e) :
    (Call net (NewBot client (some config)) method params).out = some (none, some e) ∧
    (Call net (NewBot client (some config)) method params).events =
      [.sent (expectedRequest config method params)] ∧
    decodeCount (Call net (NewBot client (some config)) method params).events = 0 := by
  rw [NewBot, Call_unfold net config client method params hurl, hdo]
  exact ⟨rfl, rfl, rfl⟩

/-- C3 with a transport that refuses the connection. -/
theorem Call_transport_error_witness :
    (Call laxNet (NewBot (failClient (.transport "connection refused")) (some sampleConfig))
      "/getMe" .nil).out = some (none, some (.transport "connection refused")) :=
  (Call_transport_error laxNet sampleConfig (failClient (.transport "connection refused"))
    "/getMe" .nil (.transport "connection refused") rfl rfl).1

/-- An object is the only body that can both fail to decode and change the
envelope. -/
theorem Decode_failure_zero (body : Body) (hfail : (Decode body {}).2 ≠ none)
    (hobj : ∀ kvs, body ≠ .value (.obj kvs)) :
    (Decode body {}).1.Ok = false ∧ (Decode body {}).1.Code = 0 ∧
      (Decode body {}).1.Description = "" := by
  cases body with
  | unreadable => exact ⟨rfl, rfl, rfl⟩
  | value j =>
    cases j with
    | obj kvs => exact absurd rfl (hobj kvs)
    | null => exact absurd rfl hfail
    | _ => exact ⟨rfl, rfl, rfl⟩

/-- C4 fails on a body that holds no JSON value: the decode error is dropped,
yet `Call` returns the error `error: 0 `, not a nil error. -/
theorem Call_decode_failure_counterexample :
    (Decode .unreadable {}).2 = some .malformed ∧
    (Call laxNet (NewBot (replyClient .unreadable) (some sampleConfig)) "/getMe" .nil).out =
      some (none, some (.errorf "error: 0 ")) ∧
    (Call laxNet (NewBot (replyClient .unreadable) (some sampleConfig)) "/getMe" .nil).out ≠
      some (none, none) := by
  refine ⟨rfl, rfl, ?_⟩
  intro h
  have h2 : (Call laxNet (NewBot (replyClient .unreadable) (some sampleConfig))
      "/getMe" .nil).out = some (none, some (.errorf "error: 0 ")) := rfl
  rw [h2] at h
  simp at h

/-- C4 as amended: when decoding the envelope fails, `Call` never returns the
decode error.  If the body is not an object the envelope stays zero and `Call`
returns a nil result with the error `error: 0 `; in every case it acts on the
fields that were decoded: nil result and `error: <code> <description>` when
`ok` is false, the decoded result and a nil error when `ok` is true. -/
theorem Call_decode_failure (net : Net) (config : TelegramBotConfig) (client : Client)
    (method : String) (params : Params) (body : Body)
    (hurl : net.parseURL ("https://api.telegram.org/bot" ++ config.Token ++ method) = none)
    (hdo : client.Do (expectedRequest config method params) = .ok body)
    (hfail : (Decode body {}).2 ≠ none) :
    ((∀ kvs, body ≠ .value (.obj kvs)) →
      (Call net (NewBot client (some config)) method params).out =
        some (none, some (.errorf "error: 0 "))) ∧
    ((Decode body {}).1.Ok = false →
      (Call net (NewBot client (some config)) method params).out =
        some (none, some (.errorf ("error: " ++ toString (Decode body {}).1.Code ++ " "
          ++ (Decode body {}).1.Description)))) ∧
    ((Decode body {}).1.Ok = true →
      (Call net (NewBot client (some config)) method params).out =
        some ((Decode body {}).1.Result, none)) ∧
    (Call net (NewBot client (some config)) method params).out ≠
      some (none, (Decode body {}).2) := by
  have hcall := Call_unfold net config client method params hurl
  rw [hdo] at hcall
  simp only at hcall
  refine ⟨?_, ?_, ?_, ?_⟩
  · intro hobj
    obtain ⟨h1, h2, h3⟩ := Decode_failure_zero body hfail hobj
    rw [NewBot, hcall]
    simp only [h1, h2, h3, Bool.not_false, if_true, errorf]
    rfl
  · intro hok
    rw [NewBot, hcall]
    simp [hok, errorf]
  · intro hok
    rw [NewBot, hcall]
    simp [hok]
  · rw [NewBot, hcall]
    cases hd : (Decode body {}).2 with
    | none => exact absurd hd hfail
    | some err =>
      have herr : err = .malformed ∨ err = .unmarshalType := by
        cases body with
        | unreadable => left; simpa [Decode] using hd.symm
        | value j =>
          right
          simp only [Decode] at hd
          split at hd
          · simpa using hd.symm
          · exact absurd hd (by simp)
      by_cases hok : (Decode body {}).1.Ok = true
      · simp [hok]
      · simp only [Bool.not_eq_true] at hok
        simp only [hok, Bool.not_false, if_true, errorf]
        rcases herr with h | h <;> simp [h]

/-- C4 as amended, at an envelope with `ok=true` and a mistyped `error_code`:
the decode fails and `Call` returns the result with a nil error. -/
theorem Call_decode_failure_witness :
    (Decode sampleMistypedBody {}).2 = some .unmarshalType ∧
    (Call laxNet (NewBot (replyClient sampleMistypedBody) (some sampleConfig))
      "/getMe" .nil).out = some (some (.num 5), none) :=
  ⟨rfl, (Call_decode_failure laxNet sampleConfig (replyClient sampleMistypedBody) "/getMe"
    .nil sampleMistypedBody rfl rfl (by decide)).2.2.1 rfl⟩

/-- Every request `Call` sends is the expected one. -/
theorem Call_sent (net : Net) (config : TelegramBotConfig) (client : Option Client)
    (method : String) (params : Params) (req : Request)
    (h : Event.sent req ∈
      (Call net { config := some config, client := client } method params).events) :
    req = expectedRequest config method params := by
  cases hp : net.parseURL ("https://api.telegram.org/bot" ++ config.Token ++ method) with
  | some err =>
    rw [Call_bad_url net config client method params err hp] at h
    simp at h
  | none =>
    cases client with
    | none => simp [Call, NewRequest, hp] at h
    | some c =>
      rw [Call_unfold net config c method params hp] at h
      cases hd : c.Do (expectedRequest config method params) with
      | error e => rw [hd] at h; simpa using h
      | ok body =>
        rw [hd] at h
        simp only at h
        split at h <;> simpa using h

/-- C9: the request `Call` builds is a POST to
`https://api.telegram.org/bot<token><method>` with the header
`content-type: application/json` and the marshalled `params` as body; the API
field of the configuration has no part in it. -/
theorem Call_request (net : Net) (config : TelegramBotConfig) (client : Option Client)
    (method : String) (params : Params) :
    (∀ req, Event.sent req ∈
        (Call net { config := some config, client := client } method params).events →
      req.verb = "POST" ∧
      req.url = "https://api.telegram.org/bot" ++ config.Token ++ method ∧
      req.header = [("content-type", "application/json")] ∧
      req.payload = Marshal params) ∧
    (∀ c, client = some c →
      net.parseURL ("https://api.telegram.org/bot" ++ config.Token ++ method) = none →
      (Call net { config := some config, client := client } method params).events.head? =
        some (.sent (expectedRequest config method params))) ∧
    (∀ api, Call net { config := some { config with API := api }, client := client }
        method params =
      Call net { config := some config, client := client } method params) := by
  refine ⟨?_, ?_, ?_⟩
  · intro req h
    rw [Call_sent net config client method params req h]
    exact ⟨rfl, rfl, rfl, rfl⟩
  · intro c hc hp
    subst hc
    rw [Call_unfold net config c method params hp]
    cases c.Do (expectedRequest config method params) with
    | error e => rfl
    | ok body =>
      simp only
      split <;> rfl
  · intro api
    rfl

/-- C9 at token `T` and method `/getMe`: the request sent first. -/
theorem Call_request_witness :
    (Call laxNet { config := some sampleConfig, client := some (replyClient sampleOkBody) }
      "/getMe" .nil).events.head? =
      some (.sent (expectedRequest sampleConfig "/getMe" .nil)) :=
  (Call_request laxNet sampleConfig (some (replyClient sampleOkBody)) "/getMe" .nil).2.1
    (replyClient sampleOkBody) rfl rfl

/-- `Call` never sends more than one request. -/
theorem Call_count_le (net : Net) (bot : TelegramBot) (method : String) (params : Params) :
    requestCount (Call net bot method params).events ≤ 1 := by
  obtain ⟨config, client⟩ := bot
  cases config with
  | none => simp [Call, requestCount]
  | some config =>
    cases hp : net.parseURL ("https://api.telegram.org/bot" ++ config.Token ++ method) with
    | some err =>
      rw [Call_bad_url net config client method params err hp]
      simp [requestCount]
    | none =>
      cases client with
      | none => simp [Call, NewRequest, hp, requestCount]
      | some c =>
        rw [Call_unfold net config c method params hp]
        cases c.Do (expectedRequest config method params) with
        | error e => simp [requestCount]
        | ok body =>
          simp only
          split <;> simp [requestCount]

/-- `Call` sends exactly one request once the request is built. -/
theorem Call_count_eq (net : Net) (config : TelegramBotConfig) (client : Client)
    (method : String) (params : Params)
    (hurl : net.parseURL ("https://api.telegram.org/bot" ++ config.Token ++ method) = none) :
    requestCount (Call net { config := some config, client := some client }
      method params).events = 1 := by
  rw [Call_unfold net config client method params hurl]
  cases client.Do (expectedRequest config method params) with
  | error e => simp [requestCount]
  | ok body =>
    simp only
    split <;> simp [requestCount]

/-- The events of `GetMe` are those of its one `Call`. -/
theorem GetMe_events (net : Net) (bot : TelegramBot) :
    (GetMe net bot).events = (Call net bot "/getMe" .nil).events := by
  unfold GetMe
  simp only
  split <;> rfl

/-- The events of `SendMessage` are those of its one `Call`. -/
theorem SendMessage_events (net : Net) (bot : TelegramBot) (m : Message) :
    (SendMessage net bot m).events = (Call net bot "/sendMessage" (.message m)).events := by
  unfold SendMessage
  simp only
  split <;> rfl

/-- C10 fails when the token holds a control character: `http.NewRequest`
rejects the URL and `Call` returns its error without sending a request. -/
theorem Call_request_count_counterexample :
    requestCount (Call ctlNet (NewBot (replyClient sampleOkBody) (some ctlConfig))
      "/getMe" .nil).events = 0 ∧
    (Call ctlNet (NewBot (replyClient sampleOkBody) (some ctlConfig)) "/getMe" .nil).out =
      some (none, some (.request "net/url: invalid control character in URL")) ∧
    requestCount (GetMe ctlNet (NewBot (replyClient sampleOkBody) (some ctlConfig))).events
      ≠ 1 := by
  refine ⟨rfl, rfl, ?_⟩
  have h : requestCount
      (GetMe ctlNet (NewBot (replyClient sampleOkBody) (some ctlConfig))).events = 0 := rfl
  rw [h]
  decide

/-- C10 as amended: every invocation of `Call` hands at most one request to the
transport (no retry); exactly one when the bot has a configuration and a client
and `http.NewRequest` accepts the URL, none when it rejects the URL; and each
of `GetMe`, `SendMessage`, `AnswerCallbackQuery` and `GetUpdates` sends exactly
the requests of its one `Call`, whatever the response is. -/
theorem Call_request_count (net : Net) (bot : TelegramBot) (method : String) (params : Params)
    (m : Message) (callbackQueryId text : String) :
    requestCount (Call net bot method params).events ≤ 1 ∧
    (∀ config client, bot = { config := some config, client := some client } →
      net.parseURL ("https://api.telegram.org/bot" ++ config.Token ++ method) = none →
      requestCount (Call net bot method params).events = 1) ∧
    (∀ config err, bot.config = some config →
      net.parseURL ("https://api.telegram.org/bot" ++ config.Token ++ method) = some err →
      requestCount (Call net bot method params).events = 0) ∧
    (GetMe net bot).events = (Call net bot "/getMe" .nil).events ∧
    (SendMessage net bot m).events = (Call net bot "/sendMessage" (.message m)).events ∧
    (AnswerCallbackQuery net bot callbackQueryId text).events =
      (Call net bot "/answerCallbackQuery" (.stringMap
        (mapLiteral [("callback_query_id", callbackQueryId), ("text", text)]))).events ∧
    (GetUpdates net bot).events = (Call net bot "/getUpdates" .nil).events := by
  refine ⟨Call_count_le net bot method params, ?_, ?_, GetMe_events net bot,
    SendMessage_events net bot m, rfl, rfl⟩
  · intro config client hb hp
    subst hb
    exact Call_count_eq net config client method params hp
  · intro config err hb hp
    obtain ⟨c, client⟩ := bot
    simp only at hb
    subst hb
    rw [Call_bad_url net config client method params err hp]
    rfl

/-- C10 as amended, at a bot whose URL parses: one request. -/
theorem Call_request_count_witness :
    requestCount (Call laxNet
      { config := some sampleConfig, client := some (replyClient sampleOkBody) }
      "/getMe" .nil).events = 1 :=
  (Call_request_count laxNet
    { config := some sampleConfig, client := some (replyClient sampleOkBody) }
    "/getMe" .nil {} "" "").2.1 sampleConfig (replyClient sampleOkBody) rfl rfl

/-- A key that selects two fields: their folded names are equal. -/
theorem keyMatches_both {key a b : String} (ha : keyMatches key a = true)
    (hb : keyMatches key b = true) : foldName a = foldName b := by
  simp only [keyMatches, decide_eq_true_eq] at ha hb
  exact ha.symm.trans hb

/-- The field `ID` after one member is stored into a `User`. -/
theorem User_setField_ID (u : User) (key : String) (v : JSON) :
    (u.setField key v).1.ID =
      if keyMatches key "id" then (storeInt u.ID v).1 else u.ID := by
  unfold User.setField
  simp only [apply_ite Prod.fst, apply_ite User.ID, ite_self]

/-- The field `IsBot` after one member is stored into a `User`. -/
theorem User_setField_IsBot (u : User) (key : String) (v : JSON) :
    (u.setField key v).1.IsBot =
      if keyMatches key "is_bot" then (storeBool u.IsBot v).1 else u.IsBot := by
  unfold User.setField
  simp only [apply_ite Prod.fst, apply_ite User.IsBot, ite_self]
  by_cases h : keyMatches key "is_bot" = true
  · have e0 := keyMatches_other (b := "id") (by decide) h
    simp only [e0, h, if_true, Bool.false_eq_true, if_false]
  · simp only [h, Bool.false_eq_true, if_false, ite_self]

/-- The field `FirstName` after one member is stored into a `User`. -/
theorem User_setField_FirstName (u : User) (key : String) (v : JSON) :
    (u.setField key v).1.FirstName =
      if keyMatches key "first_name" then (storeGoString u.FirstName v).1 else u.FirstName := by
  unfold User.setField
  simp only [apply_ite Prod.fst, apply_ite User.FirstName, ite_self]
  by_cases h : keyMatches key "first_name" = true
  · have e0 := keyMatches_other (b := "id") (by decide) h
    have e1 := keyMatches_other (b := "is_bot") (by decide) h
    simp only [e0, e1, h, if_true, Bool.false_eq_true, if_false]
  · simp only [h, Bool.false_eq_true, if_false, ite_self]

/-- The field `LastName` after one member is stored into a `User`. -/
theorem User_setField_LastName (u : User) (key : String) (v : JSON) :
    (u.setField key v).1.LastName =
      if keyMatches key "last_name" then (storeGoString u.LastName v).1 else u.LastName := by
  unfold User.setField
  simp only [apply_ite Prod.fst, apply_ite User.LastName, ite_self]
  by_cases h : keyMatches key "last_name" = true
  · have e0 := keyMatches_other (b := "id") (by decide) h
    have e1 := keyMatches_other (b := "is_bot") (by decide) h
    have e2 := keyMatches_other (b := "first_name") (by decide) h
    simp only [e0, e1, e2, h, if_true, Bool.false_eq_true, if_false]
  · simp only [h, Bool.false_eq_true, if_false, ite_self]

/-- The field `UserName` after one member is stored into a `User`. -/
theorem User_setField_UserName (u : User) (key : String) (v : JSON) :
    (u.setField key v).1.UserName =
      if keyMatches key "username" then (storeGoString u.UserName v).1 else u.UserName := by
  unfold User.setField
  simp only [apply_ite Prod.fst, apply_ite User.UserName, ite_self]
  by_cases h : keyMatches key "username" = true
  · have e0 := keyMatches_other (b := "id") (by decide) h
    have e1 := keyMatches_other (b := "is_bot") (by decide) h
    have e2 := keyMatches_other (b := "first_name") (by decide) h
    have e3 := keyMatches_other (b := "last_name") (by decide) h
    simp only [e0, e1, e2, e3, h, if_true, Bool.false_eq_true, if_false]
  · simp only [h, Bool.false_eq_true, if_false, ite_self]

/-- The field `LanguageCode` after one member is stored into a `User`. -/
theorem User_setField_LanguageCode (u : User) (key : String) (v : JSON) :
    (u.setField key v).1.LanguageCode =
      if keyMatches key "language_code" then (storeGoString u.LanguageCode v).1 else u.LanguageCode := by
  unfold User.setField
  simp only [apply_ite Prod.fst, apply_ite User.LanguageCode, ite_self]
  by_cases h : keyMatches key "language_code" = true
  · have e0 := keyMatches_other (b := "id") (by decide) h
    have e1 := keyMatches_other (b := "is_bot") (by decide) h
    have e2 := keyMatches_other (b := "first_name") (by decide) h
    have e3 := keyMatches_other (b := "last_name") (by decide) h
    have e4 := keyMatches_other (b := "username") (by decide) h
    simp only [e0, e1, e2, e3, e4, h, if_true, Bool.false_eq_true, if_false]
  · simp only [h, Bool.false_eq_true, if_false, ite_self]

/-- The field `IsPremium` after one member is stored into a `User`. -/
theorem User_setField_IsPremium (u : User) (key : String) (v : JSON) :
    (u.setField key v).1.IsPremium =
      if keyMatches key "is_premium" then (storeBool u.IsPremium v).1 else u.IsPremium := by
  unfold User.setField
  simp only [apply_ite Prod.fst, apply_ite User.IsPremium, ite_self]
  by_cases h : keyMatches key "is_premium" = true
  · have e0 := keyMatches_other (b := "id") (by decide) h
    have e1 := keyMatches_other (b := "is_bot") (by decide) h
    have e2 := keyMatches_other (b := "first_name") (by decide) h
    have e3 := keyMatches_other (b := "last_name") (by decide) h
    have e4 := keyMatches_other (b := "username") (by decide) h
    have e5 := keyMatches_other (b := "language_code") (by decide) h
    simp only [e0, e1, e2, e3, e4, e5, h, if_true, Bool.false_eq_true, if_false]
  · simp only [h, Bool.false_eq_true, if_false, ite_self]

/-- The field `AddedToAttachmentMenu` after one member is stored into a `User`. -/
theorem User_setField_AddedToAttachmentMenu (u : User) (key : String) (v : JSON) :
    (u.setField key v).1.AddedToAttachmentMenu =
      if keyMatches key "added_to_attachment_menu" then (storeBool u.AddedToAttachmentMenu v).1 else u.AddedToAttachmentMenu := by
  unfold User.setField
  simp only [apply_ite Prod.fst, apply_ite User.AddedToAttachmentMenu, ite_self]
  by_cases h : keyMatches key "added_to_attachment_menu" = true
  · have e0 := keyMatches_other (b := "id") (by decide) h
    have e1 := keyMatches_other (b := "is_bot") (by decide) h
    have e2 := keyMatches_other (b := "first_name") (by decide) h
    have e3 := keyMatches_other (b := "last_name") (by decide) h
    have e4 := keyMatches_other (b := "username") (by decide) h
    have e5 := keyMatches_other (b := "language_code") (by decide) h
    have e6 := keyMatches_other (b := "is_premium") (by decide) h
    simp only [e0, e1, e2, e3, e4, e5, e6, h, if_true, Bool.false_eq_true, if_false]
  · simp only [h, Bool.false_eq_true, if_false, ite_self]

/-- The field `CanJoinGroups` after one member is stored into a `User`. -/
theorem User_setField_CanJoinGroups (u : User) (key : String) (v : JSON) :
    (u.setField key v).1.CanJoinGroups =
      if keyMatches key "can_join_groups" then (storeBool u.CanJoinGroups v).1 else u.CanJoinGroups := by
  unfold User.setField
  simp only [apply_ite Prod.fst, apply_ite User.CanJoinGroups, ite_self]
  by_cases h : keyMatches key "can_join_groups" = true
  · have e0 := keyMatches_other (b := "id") (by decide) h
    have e1 := keyMatches_other (b := "is_bot") (by decide) h
    have e2 := keyMatches_other (b := "first_name") (by decide) h
    have e3 := keyMatches_other (b := "last_name") (by decide) h
    have e4 := keyMatches_other (b := "username") (by decide) h
    have e5 := keyMatches_other (b := "language_code") (by decide) h
    have e6 := keyMatches_other (b := "is_premium") (by decide) h
    have e7 := keyMatches_other (b := "added_to_attachment_menu") (by decide) h
    simp only [e0, e1, e2, e3, e4, e5, e6, e7, h, if_true, Bool.false_eq_true, if_false]
  · simp only [h, Bool.false_eq_true, if_false, ite_self]

/-- The field `CanReadAllGroupMessages` after one member is stored into a `User`. -/
theorem User_setField_CanReadAllGroupMessages (u : User) (key : String) (v : JSON) :
    (u.setField key v).1.CanReadAllGroupMessages =
      if keyMatches key "can_read_all_group_messages" then (storeBool u.CanReadAllGroupMessages v).1 else u.CanReadAllGroupMessages := by
  unfold User.setField
  simp only [apply_ite Prod.fst, apply_ite User.CanReadAllGroupMessages, ite_self]
  by_cases h : keyMatches key "can_read_all_group_messages" = true
  · have e0 := keyMatches_other (b := "id") (by decide) h
    have e1 := keyMatches_other (b := "is_bot") (by decide) h
    have e2 := keyMatches_other (b := "first_name") (by decide) h
    have e3 := keyMatches_other (b := "last_name") (by decide) h
    have e4 := keyMatches_other (b := "username") (by decide) h
    have e5 := keyMatches_other (b := "language_code") (by decide) h
    have e6 := keyMatches_other (b := "is_premium") (by decide) h
    have e7 := keyMatches_other (b := "added_to_attachment_menu") (by decide) h
    have e8 := keyMatches_other (b := "can_join_groups") (by decide) h
    simp only [e0, e1, e2, e3, e4, e5, e6, e7, e8, h, if_true, Bool.false_eq_true, if_false]
  · simp only [h, Bool.false_eq_true, if_false, ite_self]

/-- The field `SupportsInlineQueries` after one member is stored into a `User`. -/
theorem User_setField_SupportsInlineQueries (u : User) (key : String) (v : JSON) :
    (u.setField key v).1.SupportsInlineQueries =
      if keyMatches key "supports_inline_queries" then (storeBool u.SupportsInlineQueries v).1 else u.SupportsInlineQueries := by
  unfold User.setField
  simp only [apply_ite Prod.fst, apply_ite User.SupportsInlineQueries, ite_self]
  by_cases h : keyMatches key "supports_inline_queries" = true
  · have e0 := keyMatches_other (b := "id") (by decide) h
    have e1 := keyMatches_other (b := "is_bot") (by decide) h
    have e2 := keyMatches_other (b := "first_name") (by decide) h
    have e3 := keyMatches_other (b := "last_name") (by decide) h
    have e4 := keyMatches_other (b := "username") (by decide) h
    have e5 := keyMatches_other (b := "language_code") (by decide) h
    have e6 := keyMatches_other (b := "is_premium") (by decide) h
    have e7 := keyMatches_other (b := "added_to_attachment_menu") (by decide) h
    have e8 := keyMatches_other (b := "can_join_groups") (by decide) h
    have e9 := keyMatches_other (b := "can_read_all_group_messages") (by decide) h
    simp only [e0, e1, e2, e3, e4, e5, e6, e7, e8, e9, h, if_true, Bool.false_eq_true, if_false]
  · simp only [h, Bool.false_eq_true, if_false, ite_self]

/-- A projection of the record after all members are stored, when one member
changes it only through the field of that name. -/
theorem foldl_setField_proj {α β : Type} (set : α → String → JSON → α × Bool) (proj : α → β)
    (name : String) (st : β → JSON → β)
    (hset : ∀ x key v,
      proj (set x key v).1 = if keyMatches key name then st (proj x) v else proj x)
    (kvs : List (String × JSON)) (acc : α × Bool) :
    proj (kvs.foldl (fun acc kv => let r := set acc.1 kv.1 kv.2; (r.1, acc.2 || r.2)) acc).1
      = kvs.foldl (fun r kv => if keyMatches kv.1 name then st r kv.2 else r) (proj acc.1) := by
  induction kvs generalizing acc with
  | nil => rfl
  | cons kv rest ih =>
    simp only [List.foldl_cons]
    rw [ih]
    simp only [hset]

/-- No type error is recorded when no member records one. -/
theorem foldl_setField_ok {α : Type} (set : α → String → JSON → α × Bool)
    (kvs : List (String × JSON)) (h : ∀ x, ∀ kv ∈ kvs, (set x kv.1 kv.2).2 = false) (x : α) :
    (kvs.foldl (fun acc kv => let r := set acc.1 kv.1 kv.2; (r.1, acc.2 || r.2))
      (x, false)).2 = false := by
  induction kvs generalizing x with
  | nil => rfl
  | cons kv rest ih =>
    simp only [List.foldl_cons]
    have h1 := h x kv (List.mem_cons_self _ _)
    have h2 : (set x kv.1 kv.2) = ((set x kv.1 kv.2).1, false) := by
      rw [← h1]
    rw [h2]
    simp only [Bool.or_false]
    exact ih (fun y kv hkv => h y kv (List.mem_cons_of_mem _ hkv)) _

/-- A typed member has the type of the field its key selects. -/
theorem memberTyped_lookup {schema : List (String × Kind)} {kv : String × JSON}
    (h : memberTyped schema kv = true) {name : String} {kind : Kind}
    (hmem : (name, kind) ∈ schema) (hk : keyMatches kv.1 name = true) :
    hasKind kind kv.2 = true := by
  simp only [memberTyped, List.all_eq_true] at h
  have := h (name, kind) hmem
  simpa [hk] using this

/-- Boolean members decode to their values. -/
theorem foldl_storeBool (name : String) (kvs : List (String × JSON))
    (h : ∀ kv ∈ kvs, keyMatches kv.1 name = true → hasKind .bool kv.2 = true)
    (d : Bool) (a : Option JSON) :
    kvs.foldl (fun r kv => if keyMatches kv.1 name then (storeBool r kv.2).1 else r)
        (boolOr d a)
      = boolOr d (kvs.foldl (fun acc kv => if keyMatches kv.1 name then some kv.2 else acc) a)
    := by
  induction kvs generalizing a with
  | nil => rfl
  | cons kv rest ih =>
    have hrest := ih (fun x hx => h x (List.mem_cons_of_mem _ hx))
    simp only [List.foldl_cons]
    by_cases hk : keyMatches kv.1 name = true
    · have hv := h kv (List.mem_cons_self _ _) hk
      obtain ⟨k, v⟩ := kv
      cases v <;> simp only [hasKind] at hv <;> try exact absurd hv (by decide)
      simp only [hk, if_true, storeBool]
      exact hrest (some (.bool _))
    · simp only [hk, Bool.false_eq_true, if_false]
      exact hrest a

/-- Integer members decode to their values. -/
theorem foldl_storeInt (name : String) (kvs : List (String × JSON))
    (h : ∀ kv ∈ kvs, keyMatches kv.1 name = true → hasKind .int kv.2 = true)
    (d : Int) (a : Option JSON) :
    kvs.foldl (fun r kv => if keyMatches kv.1 name then (storeInt r kv.2).1 else r)
        (intOr d a)
      = intOr d (kvs.foldl (fun acc kv => if keyMatches kv.1 name then some kv.2 else acc) a)
    := by
  induction kvs generalizing a with
  | nil => rfl
  | cons kv rest ih =>
    have hrest := ih (fun x hx => h x (List.mem_cons_of_mem _ hx))
    simp only [List.foldl_cons]
    by_cases hk : keyMatches kv.1 name = true
    · have hv := h kv (List.mem_cons_self _ _) hk
      obtain ⟨k, v⟩ := kv
      cases v <;> simp only [hasKind] at hv <;> try exact absurd hv (by decide)
      simp only [hk, if_true, storeInt, hv]
      exact hrest (some (.num _))
    · simp only [hk, Bool.false_eq_true, if_false]
      exact hrest a

/-- String members decode to their values. -/
theorem foldl_storeGoString (name : String) (kvs : List (String × JSON))
    (h : ∀ kv ∈ kvs, keyMatches kv.1 name = true → hasKind .string kv.2 = true)
    (d : GoString) (a : Option JSON) :
    kvs.foldl (fun r kv => if keyMatches kv.1 name then (storeGoString r kv.2).1 else r)
        (strOr d a)
      = strOr d (kvs.foldl (fun acc kv => if keyMatches kv.1 name then some kv.2 else acc) a)
    := by
  induction kvs generalizing a with
  | nil => rfl
  | cons kv rest ih =>
    have hrest := ih (fun x hx => h x (List.mem_cons_of_mem _ hx))
    simp only [List.foldl_cons]
    by_cases hk : keyMatches kv.1 name = true
    · have hv := h kv (List.mem_cons_self _ _) hk
      obtain ⟨k, v⟩ := kv
      cases v <;> simp only [hasKind] at hv <;> try exact absurd hv (by decide)
      simp only [hk, if_true, storeGoString]
      exact hrest (some (.str _))
    · simp only [hk, Bool.false_eq_true, if_false]
      exact hrest a

/-- Storing a value of the right type records no error. -/
theorem storeBool_ok (cur : Bool) (v : JSON) (h : hasKind .bool v = true) :
    (storeBool cur v).2 = false := by
  cases v <;> simp_all [hasKind, storeBool]

/-- Storing a value of the right type records no error. -/
theorem storeInt_ok (cur : Int) (v : JSON) (h : hasKind .int v = true) :
    (storeInt cur v).2 = false := by
  cases v <;> simp_all [hasKind, storeInt]

/-- Storing a value of the right type records no error. -/
theorem storeGoString_ok (cur : GoString) (v : JSON) (h : hasKind .string v = true) :
    (storeGoString cur v).2 = false := by
  cases v <;> simp_all [hasKind, storeGoString]

/-- A typed member is stored into a `User` without error. -/
theorem User_setField_ok (u : User) (kv : String × JSON)
    (h : memberTyped userSchema kv = true) : (u.setField kv.1 kv.2).2 = false := by
  unfold User.setField
  by_cases h1 : keyMatches kv.1 "id" = true
  · rw [if_pos h1]
    exact storeInt_ok _ _ (memberTyped_lookup h (by simp [userSchema]) h1)
  rw [if_neg h1]
  clear h1
  by_cases h1 : keyMatches kv.1 "is_bot" = true
  · rw [if_pos h1]
    exact storeBool_ok _ _ (memberTyped_lookup h (by simp [userSchema]) h1)
  rw [if_neg h1]
  clear h1
  by_cases h1 : keyMatches kv.1 "first_name" = true
  · rw [if_pos h1]
    exact storeGoString_ok _ _ (memberTyped_lookup h (by simp [userSchema]) h1)
  rw [if_neg h1]
  clear h1
  by_cases h1 : keyMatches kv.1 "last_name" = true
  · rw [if_pos h1]
    exact storeGoString_ok _ _ (memberTyped_lookup h (by simp [userSchema]) h1)
  rw [if_neg h1]
  clear h1
  by_cases h1 : keyMatches kv.1 "username" = true
  · rw [if_pos h1]
    exact storeGoString_ok _ _ (memberTyped_lookup h (by simp [userSchema]) h1)
  rw [if_neg h1]
  clear h1
  by_cases h1 : keyMatches kv.1 "language_code" = true
  · rw [if_pos h1]
    exact storeGoString_ok _ _ (memberTyped_lookup h (by simp [userSchema]) h1)
  rw [if_neg h1]
  clear h1
  by_cases h1 : keyMatches kv.1 "is_premium" = true
  · rw [if_pos h1]
    exact storeBool_ok _ _ (memberTyped_lookup h (by simp [userSchema]) h1)
  rw [if_neg h1]
  clear h1
  by_cases h1 : keyMatches kv.1 "added_to_attachment_menu" = true
  · rw [if_pos h1]
    exact storeBool_ok _ _ (memberTyped_lookup h (by simp [userSchema]) h1)
  rw [if_neg h1]
  clear h1
  by_cases h1 : keyMatches kv.1 "can_join_groups" = true
  · rw [if_pos h1]
    exact storeBool_ok _ _ (memberTyped_lookup h (by simp [userSchema]) h1)
  rw [if_neg h1]
  clear h1
  by_cases h1 : keyMatches kv.1 "can_read_all_group_messages" = true
  · rw [if_pos h1]
    exact storeBool_ok _ _ (memberTyped_lookup h (by simp [userSchema]) h1)
  rw [if_neg h1]
  clear h1
  by_cases h1 : keyMatches kv.1 "supports_inline_queries" = true
  · rw [if_pos h1]
    exact storeBool_ok _ _ (memberTyped_lookup h (by simp [userSchema]) h1)
  rw [if_neg h1]

/-- Two `User` records with equal fields are equal. -/
theorem User_eq (a b : User) (h1 : a.ID = b.ID) (h2 : a.IsBot = b.IsBot)
    (h3 : a.FirstName = b.FirstName) (h4 : a.LastName = b.LastName)
    (h5 : a.UserName = b.UserName) (h6 : a.LanguageCode = b.LanguageCode)
    (h7 : a.IsPremium = b.IsPremium) (h8 : a.AddedToAttachmentMenu = b.AddedToAttachmentMenu)
    (h9 : a.CanJoinGroups = b.CanJoinGroups)
    (h10 : a.CanReadAllGroupMessages = b.CanReadAllGroupMessages)
    (h11 : a.SupportsInlineQueries = b.SupportsInlineQueries) : a = b := by
  cases a
  cases b
  simp only at h1 h2 h3 h4 h5 h6 h7 h8 h9 h10 h11
  subst h1 h2 h3 h4 h5 h6 h7 h8 h9 h10 h11
  rfl

/-- Decoding a typed object into a zero `User` gives the record the object
describes, without error. -/
theorem decodeUser_typed (kvs : List (String × JSON))
    (h : kvs.all (memberTyped userSchema) = true) :
    decodeUser {} (.obj kvs) = (userOf kvs, false) := by
  have hm : ∀ kv ∈ kvs, memberTyped userSchema kv = true := List.all_eq_true.mp h
  have hb : ∀ name, (name, Kind.bool) ∈ userSchema →
      ∀ kv ∈ kvs, keyMatches kv.1 name = true → hasKind .bool kv.2 = true :=
    fun name hn kv hkv hk => memberTyped_lookup (hm kv hkv) hn hk
  have hi : ∀ name, (name, Kind.int) ∈ userSchema →
      ∀ kv ∈ kvs, keyMatches kv.1 name = true → hasKind .int kv.2 = true :=
    fun name hn kv hkv hk => memberTyped_lookup (hm kv hkv) hn hk
  have hs : ∀ name, (name, Kind.string) ∈ userSchema →
      ∀ kv ∈ kvs, keyMatches kv.1 name = true → hasKind .string kv.2 = true :=
    fun name hn kv hkv hk => memberTyped_lookup (hm kv hkv) hn hk
  apply Prod.ext
  · simp only [decodeUser, decodeStruct]
    apply User_eq
    · rw [foldl_setField_proj User.setField User.ID "id" (fun r v => (storeInt r v).1)
        User_setField_ID]
      exact foldl_storeInt "id" kvs (hi "id" (by simp [userSchema])) 0 none
    · rw [foldl_setField_proj User.setField User.IsBot "is_bot" (fun r v => (storeBool r v).1)
        User_setField_IsBot]
      exact foldl_storeBool "is_bot" kvs (hb "is_bot" (by simp [userSchema])) false none
    · rw [foldl_setField_proj User.setField User.FirstName "first_name"
        (fun r v => (storeGoString r v).1) User_setField_FirstName]
      exact foldl_storeGoString "first_name" kvs (hs "first_name" (by simp [userSchema])) [] none
    · rw [foldl_setField_proj User.setField User.LastName "last_name"
        (fun r v => (storeGoString r v).1) User_setField_LastName]
      exact foldl_storeGoString "last_name" kvs (hs "last_name" (by simp [userSchema])) [] none
    · rw [foldl_setField_proj User.setField User.UserName "username"
        (fun r v => (storeGoString r v).1) User_setField_UserName]
      exact foldl_storeGoString "username" kvs (hs "username" (by simp [userSchema])) [] none
    · rw [foldl_setField_proj User.setField User.LanguageCode "language_code"
        (fun r v => (storeGoString r v).1) User_setField_LanguageCode]
      exact foldl_storeGoString "language_code" kvs
        (hs "language_code" (by simp [userSchema])) [] none
    · rw [foldl_setField_proj User.setField User.IsPremium "is_premium"
        (fun r v => (storeBool r v).1) User_setField_IsPremium]
      exact foldl_storeBool "is_premium" kvs (hb "is_premium" (by simp [userSchema])) false none
    · rw [foldl_setField_proj User.setField User.AddedToAttachmentMenu
        "added_to_attachment_menu" (fun r v => (storeBool r v).1)
        User_setField_AddedToAttachmentMenu]
      exact foldl_storeBool "added_to_attachment_menu" kvs
        (hb "added_to_attachment_menu" (by simp [userSchema])) false none
    · rw [foldl_setField_proj User.setField User.CanJoinGroups "can_join_groups"
        (fun r v => (storeBool r v).1) User_setField_CanJoinGroups]
      exact foldl_storeBool "can_join_groups" kvs
        (hb "can_join_groups" (by simp [userSchema])) false none
    · rw [foldl_setField_proj User.setField User.CanReadAllGroupMessages
        "can_read_all_group_messages" (fun r v => (storeBool r v).1)
        User_setField_CanReadAllGroupMessages]
      exact foldl_storeBool "can_read_all_group_messages" kvs
        (hb "can_read_all_group_messages" (by simp [userSchema])) false none
    · rw [foldl_setField_proj User.setField User.SupportsInlineQueries
        "supports_inline_queries" (fun r v => (storeBool r v).1)
        User_setField_SupportsInlineQueries]
      exact foldl_storeBool "supports_inline_queries" kvs
        (hb "supports_inline_queries" (by simp [userSchema])) false none
  · simp only [decodeUser, decodeStruct]
    exact foldl_setField_ok User.setField kvs (fun x kv hkv => User_setField_ok x kv (hm kv hkv)) {}

/-- C8: on an envelope `{ok:true, result:R}` where `R` is an object whose
members have the types of the `User` fields they name, `GetMe` returns a nil
error and the `User` that `R` describes: a field named by a member takes the
value of the last such member, a field no member names is zero.  The request
goes to `/getMe`. -/
theorem GetMe_ok (net : Net) (config : TelegramBotConfig) (client : Client) (body : Body)
    (kvs : List (String × JSON))
    (hurl : net.parseURL ("https://api.telegram.org/bot" ++ config.Token ++ "/getMe") = none)
    (hdo : client.Do (expectedRequest config "/getMe" .nil) = .ok body)
    (hok : (Decode body {}).1.Ok = true)
    (hres : (Decode body {}).1.Result = some (.obj kvs))
    (htyped : kvs.all (memberTyped userSchema) = true) :
    (GetMe net (NewBot client (some config))).out = some (userOf kvs, none) ∧
    (GetMe net (NewBot client (some config))).events.head? =
      some (.sent { verb := "POST"
                    url := "https://api.telegram.org/bot" ++ config.Token ++ "/getMe"
                    header := [("content-type", "application/json")]
                    payload := some .null }) ∧
    (∀ name, (∀ kv ∈ kvs, keyMatches kv.1 name = false) → lastMatch kvs name = none) ∧
    (∀ pre post key v name, kvs = pre ++ (key, v) :: post → keyMatches key name = true →
      (∀ kv ∈ post, keyMatches kv.1 name = false) → lastMatch kvs name = some v) := by
  have hcall := Call_unfold net config client "/getMe" .nil hurl
  rw [hdo] at hcall
  simp only [hok, Bool.not_true, Bool.false_eq_true, if_false, hres] at hcall
  refine ⟨?_, ?_, ?_, ?_⟩
  · simp only [GetMe, NewBot, hcall, Unmarshal, decodeUser_typed kvs htyped,
      Bool.false_eq_true, if_false]
  · rw [GetMe_events, NewBot, hcall]
    rfl
  · intro name h
    exact lastMatch_none kvs name h
  · intro pre post key v name hk hm hpost
    rw [hk]
    exact lastMatch_last pre post key name v hm hpost

/-- C8 at `{ok:true, result:{id:42, is_bot:true, first_name:"Bot"}}`. -/
theorem GetMe_ok_witness :
    (GetMe laxNet (NewBot (replyClient sampleUserBody) (some sampleConfig))).out =
      some ({ ID := 42, IsBot := true, FirstName := GoString.ofText "Bot" }, none) :=
  (GetMe_ok laxNet sampleConfig (replyClient sampleUserBody) sampleUserBody sampleUserMembers
    rfl rfl rfl rfl rfl).1

/-- The parameter map of `AnswerCallbackQuery` marshals to the two members in
key order. -/
theorem Marshal_callback (s t : String) :
    Marshal (.stringMap (mapLiteral [("callback_query_id", s), ("text", t)])) =
      some (.obj [("callback_query_id", .str s), ("text", .str t)]) := by
  have h1 : ¬ (keyLt "text" "callback_query_id" = true) := by decide
  have h2 : ¬ ("text" = "callback_query_id") := by decide
  simp only [Marshal, mapLiteral, List.foldl_cons, List.foldl_nil, mapInsert, if_neg h1,
    if_neg h2, List.map_cons, List.map_nil]

/-- C5: `AnswerCallbackQuery(s, t)` posts to `/answerCallbackQuery` the body
`{"callback_query_id":<s>,"text":<t>}` and returns a nil error whenever the
envelope decodes with `ok=true`, whatever it holds in `result`. -/
theorem AnswerCallbackQuery_ok (net : Net) (config : TelegramBotConfig) (client : Client)
    (s t : String)
    (hurl : net.parseURL
      ("https://api.telegram.org/bot" ++ config.Token ++ "/answerCallbackQuery") = none) :
    (AnswerCallbackQuery net (NewBot client (some config)) s t).events.head? =
      some (.sent { verb := "POST"
                    url := "https://api.telegram.org/bot" ++ config.Token
                      ++ "/answerCallbackQuery"
                    header := [("content-type", "application/json")]
                    payload := some (.obj [("callback_query_id", .str s), ("text", .str t)]) }) ∧
    (∀ body,
      client.Do { verb := "POST"
                  url := "https://api.telegram.org/bot" ++ config.Token
                    ++ "/answerCallbackQuery"
                  header := [("content-type", "application/json")]
                  payload := some (.obj [("callback_query_id", .str s), ("text", .str t)]) }
        = .ok body →
      (Decode body {}).1.Ok = true →
      (AnswerCallbackQuery net (NewBot client (some config)) s t).out = some none) := by
  have hcall := Call_unfold net config client "/answerCallbackQuery"
    (.stringMap (mapLiteral [("callback_query_id", s), ("text", t)])) hurl
  simp only [expectedRequest, Marshal_callback] at hcall
  constructor
  · simp only [AnswerCallbackQuery, NewBot, hcall]
    cases client.Do _ with
    | error e => rfl
    | ok body =>
      simp only
      split <;> rfl
  · intro body hdo hok
    rw [hdo] at hcall
    simp only [hok, Bool.not_true, Bool.false_eq_true, if_false] at hcall
    simp only [AnswerCallbackQuery, NewBot, hcall, Option.map_some']

/-- C5 at `AnswerCallbackQuery("cbq1", "done")` answered by `{ok:true}`. -/
theorem AnswerCallbackQuery_ok_witness :
    (AnswerCallbackQuery laxNet (NewBot (replyClient sampleBareOkBody) (some sampleConfig))
      "cbq1" "done").events.head? =
      some (.sent { verb := "POST"
                    url := "https://api.telegram.org/botT/answerCallbackQuery"
                    header := [("content-type", "application/json")]
                    payload := some
                      (.obj [("callback_query_id", .str "cbq1"), ("text", .str "done")]) }) ∧
    (AnswerCallbackQuery laxNet (NewBot (replyClient sampleBareOkBody) (some sampleConfig))
      "cbq1" "done").out = some none :=
  ⟨(AnswerCallbackQuery_ok laxNet sampleConfig (replyClient sampleBareOkBody) "cbq1" "done"
      rfl).1,
   (AnswerCallbackQuery_ok laxNet sampleConfig (replyClient sampleBareOkBody) "cbq1" "done"
      rfl).2 sampleBareOkBody rfl rfl⟩

/-- The member `id` is stored into the field `ID`. -/
theorem User_store_ID (u : User) (v : JSON) :
    u.setField "id" v = ({ u with ID := (storeInt u.ID v).1 }, (storeInt u.ID v).2) := rfl

/-- The member `is_bot` is stored into the field `IsBot`. -/
theorem User_store_IsBot (u : User) (v : JSON) :
    u.setField "is_bot" v = ({ u with IsBot := (storeBool u.IsBot v).1 }, (storeBool u.IsBot v).2) := rfl

/-- The member `first_name` is stored into the field `FirstName`. -/
theorem User_store_FirstName (u : User) (v : JSON) :
    u.setField "first_name" v = ({ u with FirstName := (storeGoString u.FirstName v).1 }, (storeGoString u.FirstName v).2) := rfl

/-- The member `last_name` is stored into the field `LastName`. -/
theorem User_store_LastName (u : User) (v : JSON) :
    u.setField "last_name" v = ({ u with LastName := (storeGoString u.LastName v).1 }, (storeGoString u.LastName v).2) := rfl

/-- The member `username` is stored into the field `UserName`. -/
theorem User_store_UserName (u : User) (v : JSON) :
    u.setField "username" v = ({ u with UserName := (storeGoString u.UserName v).1 }, (storeGoString u.UserName v).2) := rfl

/-- The member `language_code` is stored into the field `LanguageCode`. -/
theorem User_store_LanguageCode (u : User) (v : JSON) :
    u.setField "language_code" v = ({ u with LanguageCode := (storeGoString u.LanguageCode v).1 }, (storeGoString u.LanguageCode v).2) := rfl

/-- The member `is_premium` is stored into the field `IsPremium`. -/
theorem User_store_IsPremium (u : User) (v : JSON) :
    u.setField "is_premium" v = ({ u with IsPremium := (storeBool u.IsPremium v).1 }, (storeBool u.IsPremium v).2) := rfl

/-- The member `added_to_attachment_menu` is stored into the field `AddedToAttachmentMenu`. -/
theorem User_store_AddedToAttachmentMenu (u : User) (v : JSON) :
    u.setField "added_to_attachment_menu" v = ({ u with AddedToAttachmentMenu := (storeBool u.AddedToAttachmentMenu v).1 }, (storeBool u.AddedToAttachmentMenu v).2) := rfl

/-- The member `can_join_groups` is stored into the field `CanJoinGroups`. -/
theorem User_store_CanJoinGroups (u : User) (v : JSON) :
    u.setField "can_join_groups" v = ({ u with CanJoinGroups := (storeBool u.CanJoinGroups v).1 }, (storeBool u.CanJoinGroups v).2) := rfl

/-- The member `can_read_all_group_messages` is stored into the field `CanReadAllGroupMessages`. -/
theorem User_store_CanReadAllGroupMessages (u : User) (v : JSON) :
    u.setField "can_read_all_group_messages" v = ({ u with CanReadAllGroupMessages := (storeBool u.CanReadAllGroupMessages v).1 }, (storeBool u.CanReadAllGroupMessages v).2) := rfl

/-- The member `supports_inline_queries` is stored into the field `SupportsInlineQueries`. -/
theorem User_store_SupportsInlineQueries (u : User) (v : JSON) :
    u.setField "supports_inline_queries" v = ({ u with SupportsInlineQueries := (storeBool u.SupportsInlineQueries v).1 }, (storeBool u.SupportsInlineQueries v).2) := rfl

/-- The member `type` is stored into the field `Type_`. -/
theorem MessageEntity_store_Type_ (u : MessageEntity) (v : JSON) :
    u.setField "type" v = ({ u with Type_ := (storeGoString u.Type_ v).1 }, (storeGoString u.Type_ v).2) := rfl

/-- The member `offset` is stored into the field `Offset`. -/
theorem MessageEntity_store_Offset (u : MessageEntity) (v : JSON) :
    u.setField "offset" v = ({ u with Offset := (storeInt u.Offset v).1 }, (storeInt u.Offset v).2) := rfl

/-- The member `length` is stored into the field `Length`. -/
theorem MessageEntity_store_Length (u : MessageEntity) (v : JSON) :
    u.setField "length" v = ({ u with Length := (storeInt u.Length v).1 }, (storeInt u.Length v).2) := rfl

/-- The member `url` is stored into the field `URL`. -/
theorem MessageEntity_store_URL (u : MessageEntity) (v : JSON) :
    u.setField "url" v = ({ u with URL := (storeGoString u.URL v).1 }, (storeGoString u.URL v).2) := rfl

/-- The member `user` is stored into the field `User`. -/
theorem MessageEntity_store_User (u : MessageEntity) (v : JSON) :
    u.setField "user" v = ({ u with User := (storePtr decodeUser {} u.User v).1 }, (storePtr decodeUser {} u.User v).2) := rfl

/-- The member `chat_id` is stored into the field `ChatId`. -/
theorem Message_store_ChatId (u : Message) (v : JSON) :
    u.setField "chat_id" v = ({ u with ChatId := (storeGoString u.ChatId v).1 }, (storeGoString u.ChatId v).2) := rfl

/-- The member `message_thread_id` is stored into the field `MessageThreadId`. -/
theorem Message_store_MessageThreadId (u : Message) (v : JSON) :
    u.setField "message_thread_id" v = ({ u with MessageThreadId := (storeGoString u.MessageThreadId v).1 }, (storeGoString u.MessageThreadId v).2) := rfl

/-- The member `text` is stored into the field `Text`. -/
theorem Message_store_Text (u : Message) (v : JSON) :
    u.setField "text" v = ({ u with Text := (storeGoString u.Text v).1 }, (storeGoString u.Text v).2) := rfl

/-- The member `parse_mode` is stored into the field `ParseMode`. -/
theorem Message_store_ParseMode (u : Message) (v : JSON) :
    u.setField "parse_mode" v = ({ u with ParseMode := (storeGoString u.ParseMode v).1 }, (storeGoString u.ParseMode v).2) := rfl

/-- The member `entities` is stored into the field `Entities`. -/
theorem Message_store_Entities (u : Message) (v : JSON) :
    u.setField "entities" v = ({ u with Entities := (storeSlice decodeEntity {} u.Entities v).1 }, (storeSlice decodeEntity {} u.Entities v).2) := rfl

/-- The member `disable_web_page_preview` is stored into the field `DisableWebPageView`. -/
theorem Message_store_DisableWebPageView (u : Message) (v : JSON) :
    u.setField "disable_web_page_preview" v = ({ u with DisableWebPageView := (storeBool u.DisableWebPageView v).1 }, (storeBool u.DisableWebPageView v).2) := rfl

/-- The member `disable_notification` is stored into the field `DisableNotification`. -/
theorem Message_store_DisableNotification (u : Message) (v : JSON) :
    u.setField "disable_notification" v = ({ u with DisableNotification := (storeBool u.DisableNotification v).1 }, (storeBool u.DisableNotification v).2) := rfl

/-- The member `protect_content` is stored into the field `ProtectContent`. -/
theorem Message_store_ProtectContent (u : Message) (v : JSON) :
    u.setField "protect_content" v = ({ u with ProtectContent := (storeBool u.ProtectContent v).1 }, (storeBool u.ProtectContent v).2) := rfl

/-- The member `reply_to_message_id` is stored into the field `ReplyToMessageId`. -/
theorem Message_store_ReplyToMessageId (u : Message) (v : JSON) :
    u.setField "reply_to_message_id" v = ({ u with ReplyToMessageId := (storeInt u.ReplyToMessageId v).1 }, (storeInt u.ReplyToMessageId v).2) := rfl

/-- The member `allow_sending_with_reply` is stored into the field `AllowSendingWithReply`. -/
theorem Message_store_AllowSendingWithReply (u : Message) (v : JSON) :
    u.setField "allow_sending_with_reply" v = ({ u with AllowSendingWithReply := (storeBool u.AllowSendingWithReply v).1 }, (storeBool u.AllowSendingWithReply v).2) := rfl

/-- Members dropped by `omitempty` are not decoded. -/
theorem foldl_omitEmpty {α : Type} (f : α → String × JSON → α) (acc : α) (key : String)
    (empty : Bool) (v : JSON) :
    (omitEmpty key empty v).foldl f acc = if empty then acc else f acc (key, v) := by
  cases empty <;> rfl

/-- A well-formed Go string survives `json.Marshal` followed by decoding. -/
theorem ofText_toText (g : GoString) (h : GoString.valid g = true) :
    GoString.ofText (GoString.toText g) = g := by
  induction g with
  | nil => rfl
  | cons r rest ih =>
    cases r with
    | bad b => simp [GoString.valid] at h
    | rune c =>
      have hrest : GoString.valid rest = true := by
        simpa [GoString.valid] using h
      have := ih hrest
      simp only [GoString.ofText, GoString.toText, List.map_cons, GoRune.coerced] at this ⊢
      rw [this]

/-- A `User` with well-formed strings is the one decoded from its
serialization. -/
theorem coerceUser_valid (u : User) (h : userValid u = true) : coerceUser u = u := by
  obtain ⟨id, bot, fn, ln, un, lc, p, a, c, r, q⟩ := u
  simp only [userValid, Bool.and_eq_true] at h
  obtain ⟨⟨⟨h1, h2⟩, h3⟩, h4⟩ := h
  simp only [coerceUser, ofText_toText _ h1, ofText_toText _ h2, ofText_toText _ h3,
    ofText_toText _ h4]

/-- Decoding the serialization of a `User` gives that `User` with its strings
gone through `json.Marshal`, whatever the variable held. -/
theorem decodeUser_marshalUser (cur u : User) (h : userInRange u = true) :
    decodeUser cur (marshalUser u) = (coerceUser u, false) := by
  cases u
  simp only [userInRange] at h
  simp only [decodeUser, marshalUser, decodeStruct, List.foldl_cons, List.foldl_nil,
    User_store_ID, User_store_IsBot, User_store_FirstName, User_store_LastName, User_store_UserName, User_store_LanguageCode, User_store_IsPremium, User_store_AddedToAttachmentMenu, User_store_CanJoinGroups, User_store_CanReadAllGroupMessages, User_store_SupportsInlineQueries,
    storeInt, storeBool, storeGoString, h, if_true, Bool.or_false, coerceUser]

/-- Decoding an object into a pointer variable decodes into the record. -/
theorem storePtr_obj {α : Type} (dec : α → JSON → α × Bool) (zero : α) (cur : Option α)
    (kvs : List (String × JSON)) :
    storePtr dec zero cur (.obj kvs) =
      (some (dec (cur.getD zero) (.obj kvs)).1, (dec (cur.getD zero) (.obj kvs)).2) := rfl

/-- Decoding the serialization of a `User` into a `*User` variable. -/
theorem storePtr_marshalUser (cur : Option User) (u : User) (h : userInRange u = true) :
    storePtr decodeUser {} cur (marshalUser u) = (some (coerceUser u), false) := by
  have hd := decodeUser_marshalUser (cur.getD {}) u h
  unfold marshalUser at hd ⊢
  rw [storePtr_obj, hd]

/-- Decoding the serialization of a `MessageEntity` into a variable overwrites
the fields that are always written, with the strings gone through
`json.Marshal`, and keeps the others when they are omitted. -/
theorem decodeEntity_marshalEntity (cur e : MessageEntity) (h : entityInRange e = true) :
    decodeEntity cur (marshalEntity e) =
      ({ Type_ := GoString.ofText (GoString.toText e.Type_), Offset := e.Offset,
         Length := e.Length,
         URL := if e.URL = [] then cur.URL else GoString.ofText (GoString.toText e.URL),
         User := if e.User = none then cur.User else e.User.map coerceUser }, false) := by
  obtain ⟨ty, off, len, url, usr⟩ := e
  simp only [entityInRange, Bool.and_eq_true] at h
  obtain ⟨⟨h1, h2⟩, h3⟩ := h
  simp only [decodeEntity, marshalEntity, decodeStruct, List.foldl_append, foldl_omitEmpty,
    List.foldl_cons, List.foldl_nil, MessageEntity_store_Type_, MessageEntity_store_Offset, MessageEntity_store_Length, MessageEntity_store_URL, MessageEntity_store_User, storeInt, storeGoString, h1, h2, if_true,
    Bool.or_false, Bool.false_or]
  cases usr with
  | none =>
    cases url with
    | nil => simp
    | cons r rest => simp [storeGoString]
  | some u =>
    simp only at h3
    cases url with
    | nil => simp [marshalUserPtr, storePtr_marshalUser _ u h3]
    | cons r rest => simp [storeGoString, marshalUserPtr, storePtr_marshalUser _ u h3]

/-- The entity a pointer variable holds after the serialization of an entity
is decoded into it. -/
theorem storePtr_marshalEntityPtr (cur p : Option MessageEntity)
    (h : (match p with
          | none => true
          | some e => entityInRange e) = true) :
    storePtr decodeEntity {} cur (marshalEntityPtr p) =
      (p.map fun e =>
        { Type_ := GoString.ofText (GoString.toText e.Type_), Offset := e.Offset,
          Length := e.Length,
          URL := if e.URL = [] then (cur.getD {}).URL
                 else GoString.ofText (GoString.toText e.URL),
          User := if e.User = none then (cur.getD {}).User else e.User.map coerceUser },
       false) := by
  cases p with
  | none => rfl
  | some e =>
    simp only at h
    have hd := decodeEntity_marshalEntity (cur.getD {}) e h
    simp only [marshalEntityPtr, Option.map_some']
    unfold marshalEntity at hd ⊢
    rw [storePtr_obj, hd]

/-- An entity with well-formed strings, decoded from its serialization into
the variable that holds it, is unchanged. -/
theorem storePtr_self (p : Option MessageEntity)
    (hr : ∀ e, p = some e → entityInRange e = true)
    (hv : ∀ e, p = some e → entityValid e = true) :
    storePtr decodeEntity {} p (marshalEntityPtr p) = (p, false) := by
  cases p with
  | none => rfl
  | some e =>
    rw [storePtr_marshalEntityPtr (some e) (some e) (hr e rfl)]
    have hv := hv e rfl
    obtain ⟨ty, off, len, url, usr⟩ := e
    simp only [entityValid, Bool.and_eq_true] at hv
    obtain ⟨⟨h1, h2⟩, h3⟩ := hv
    simp only [Option.map_some', Option.getD_some, ofText_toText _ h1, ofText_toText _ h2,
      ite_self]
    cases usr with
    | none => rfl
    | some u =>
      simp only at h3
      simp [coerceUser_valid u h3]

/-- Decoding the serialization of a slice of entity pointers into that very
slice leaves it unchanged when the strings are well-formed. -/
theorem decodeElems_self (ps : List (Option MessageEntity))
    (hr : (ps.all fun p =>
      match p with
      | none => true
      | some e => entityInRange e) = true)
    (hv : (ps.all fun p =>
      match p with
      | none => true
      | some e => entityValid e) = true) :
    decodeElems decodeEntity {} ps (ps.map marshalEntityPtr) = (ps, false) := by
  induction ps with
  | nil => rfl
  | cons p rest ih =>
    simp only [List.all_cons, Bool.and_eq_true] at hr hv
    simp only [List.map_cons, decodeElems, List.head?_cons, Option.getD_some, List.tail_cons,
      storePtr_self p (fun e he => by subst he; exact hr.1) (fun e he => by subst he; exact hv.1),
      ih hr.2 hv.2, Bool.or_false]

/-- A `Message` with well-formed strings, decoded from its own serialization,
is unchanged. -/
theorem decodeMessage_marshalMessage (m : Message) (hr : messageInRange m = true)
    (hv : messageValid m = true) :
    decodeMessage m (marshalMessage m) = (m, false) := by
  obtain ⟨chat, thread, text, mode, ents, web, notif, prot, reply, allow⟩ := m
  simp only [messageInRange, Bool.and_eq_true] at hr
  obtain ⟨h1, h2⟩ := hr
  simp only [messageValid, Bool.and_eq_true] at hv
  obtain ⟨⟨⟨⟨v1, v2⟩, v3⟩, v4⟩, v5⟩ := hv
  simp only [decodeMessage, marshalMessage, decodeStruct, List.foldl_append, foldl_omitEmpty,
    List.foldl_cons, List.foldl_nil, Message_store_ChatId, Message_store_MessageThreadId, Message_store_Text, Message_store_ParseMode, Message_store_Entities, Message_store_DisableWebPageView, Message_store_DisableNotification, Message_store_ProtectContent, Message_store_ReplyToMessageId, Message_store_AllowSendingWithReply, storeInt, storeGoString, storeBool, storeSlice,
    decodeElems_self ents h2 v5, h1, if_true, Bool.or_false, ite_self,
    ofText_toText _ v1, ofText_toText _ v2, ofText_toText _ v3, ofText_toText _ v4]

/-- C6 fails on a message with an entity whose type is not UTF-8:
`json.Marshal` writes U+FFFD for the byte `0xFF`, the echo is decoded into the
entity record the caller shares, and its type is no longer the one of `m`. -/
theorem SendMessage_echo_counterexample :
    messageInRange badTypeMessage = true ∧
    (Decode (echoBody badTypeMessage) {}).1.Ok = true ∧
    (SendMessage laxNet (NewBot (replyClient (echoBody badTypeMessage)) (some sampleConfig))
      badTypeMessage).out =
      some ({ ChatId := GoString.ofText "123", Text := GoString.ofText "hi",
              Entities := [some { Type_ := [.rune (Char.ofNat 0xFFFD)], Offset := 0,
                                  Length := 2 }] }, none) ∧
    (SendMessage laxNet (NewBot (replyClient (echoBody badTypeMessage)) (some sampleConfig))
      badTypeMessage).out ≠ some (badTypeMessage, none) := by
  have h : (SendMessage laxNet (NewBot (replyClient (echoBody badTypeMessage))
      (some sampleConfig)) badTypeMessage).out =
      some ({ ChatId := GoString.ofText "123", Text := GoString.ofText "hi",
              Entities := [some { Type_ := [.rune (Char.ofNat 0xFFFD)], Offset := 0,
                                  Length := 2 }] }, none) := rfl
  refine ⟨rfl, rfl, h, ?_⟩
  rw [h]
  decide

/-- C6 as amended: for a message whose strings are all well-formed UTF-8, when
the response to `SendMessage(m)` is `{ok:true, result:E}` with `E` the
serialization of `m` itself, `SendMessage` returns a nil error and the message
the result was decoded into is `m`, field for field. -/
theorem SendMessage_echo (net : Net) (config : TelegramBotConfig) (client : Client)
    (m : Message) (body : Body)
    (hurl : net.parseURL ("https://api.telegram.org/bot" ++ config.Token ++ "/sendMessage")
      = none)
    (hdo : client.Do (expectedRequest config "/sendMessage" (.message m)) = .ok body)
    (hok : (Decode body {}).1.Ok = true)
    (hres : (Decode body {}).1.Result = some (marshalMessage m))
    (hrange : messageInRange m = true)
    (hvalid : messageValid m = true) :
    (SendMessage net (NewBot client (some config)) m).out = some (m, none) := by
  have hcall := Call_unfold net config client "/sendMessage" (.message m) hurl
  rw [hdo] at hcall
  simp only [hok, Bool.not_true, Bool.false_eq_true, if_false, hres] at hcall
  simp only [SendMessage, NewBot, hcall, Unmarshal,
    decodeMessage_marshalMessage m hrange hvalid, Bool.false_eq_true, if_false]

/-- C6 as amended, at `m = {chat_id:"123", text:"hi"}` echoed back. -/
theorem SendMessage_echo_witness :
    (SendMessage laxNet (NewBot (replyClient (echoBody sampleMessage)) (some sampleConfig))
      sampleMessage).out =
      some ({ ChatId := GoString.ofText "123", Text := GoString.ofText "hi" }, none) :=
  SendMessage_echo laxNet sampleConfig (replyClient (echoBody sampleMessage)) sampleMessage
    (echoBody sampleMessage) rfl rfl rfl rfl rfl rfl

/-- The field `Entities` after one member is stored into a `Message`. -/
theorem Message_setField_Entities (m : Message) (key : String) (v : JSON) :
    (m.setField key v).1.Entities =
      if keyMatches key "entities" then (storeSlice decodeEntity {} m.Entities v).1
      else m.Entities := by
  unfold Message.setField
  simp only [apply_ite Prod.fst, apply_ite Message.Entities, ite_self]
  by_cases h : keyMatches key "entities" = true
  · have e0 := keyMatches_other (b := "chat_id") (by decide) h
    have e1 := keyMatches_other (b := "message_thread_id") (by decide) h
    have e2 := keyMatches_other (b := "text") (by decide) h
    have e3 := keyMatches_other (b := "parse_mode") (by decide) h
    simp only [e0, e1, e2, e3, h, if_true, Bool.false_eq_true, if_false]
  · simp only [h, Bool.false_eq_true, if_false, ite_self]

/-- The entities decoded from the serialization of a message with entities are
the elements of its `entities` array, decoded into the elements the variable
holds. -/
theorem decodeMessage_Entities (cur m : Message) (hne : m.Entities ≠ []) :
    (decodeMessage cur (marshalMessage m)).1.Entities =
      (decodeElems decodeEntity {} cur.Entities (m.Entities.map marshalEntityPtr)).1 := by
  have hemp : m.Entities.isEmpty = false := by
    cases hm : m.Entities with
    | nil => exact absurd hm hne
    | cons p rest => rfl
  unfold decodeMessage decodeStruct marshalMessage
  simp only
  rw [foldl_setField_proj Message.setField Message.Entities "entities"
    (fun r v => (storeSlice decodeEntity {} r v).1) Message_setField_Entities]
  simp only [List.foldl_append, foldl_omitEmpty, List.foldl_cons, List.foldl_nil, hemp,
    (by decide : keyMatches "chat_id" "entities" = false),
    (by decide : keyMatches "message_thread_id" "entities" = false),
    (by decide : keyMatches "text" "entities" = false),
    (by decide : keyMatches "parse_mode" "entities" = false),
    (by decide : keyMatches "entities" "entities" = true),
    (by decide : keyMatches "disable_web_page_preview" "entities" = false),
    (by decide : keyMatches "disable_notification" "entities" = false),
    (by decide : keyMatches "protect_content" "entities" = false),
    (by decide : keyMatches "reply_to_message_id" "entities" = false),
    (by decide : keyMatches "allow_sending_with_reply" "entities" = false),
    Bool.false_eq_true, if_false, if_true, ite_self, storeSlice]

/-- Decoding the serialized entities into any slice keeps their number, and
the offset and length of each; its type is the one `json.Marshal` wrote. -/
theorem decodeElems_echo (ps cur : List (Option MessageEntity))
    (h : (ps.all fun p =>
      match p with
      | none => true
      | some e => entityInRange e) = true) :
    (decodeElems decodeEntity {} cur (ps.map marshalEntityPtr)).1.length = ps.length ∧
    ∀ (i : Nat) (e : MessageEntity), ps[i]? = some (some e) →
      ∃ e' : MessageEntity,
        (decodeElems decodeEntity {} cur (ps.map marshalEntityPtr)).1[i]? = some (some e') ∧
        e'.Type_ = GoString.ofText (GoString.toText e.Type_) ∧
        e'.Offset = e.Offset ∧ e'.Length = e.Length := by
  induction ps generalizing cur with
  | nil =>
    refine ⟨rfl, ?_⟩
    intro i e hi
    simp at hi
  | cons p rest ih =>
    simp only [List.all_cons, Bool.and_eq_true] at h
    obtain ⟨hlen, hrest⟩ := ih cur.tail h.2
    simp only [List.map_cons, decodeElems, storePtr_marshalEntityPtr _ p h.1, List.length_cons,
      hlen, true_and]
    intro i e hi
    cases i with
    | zero =>
      simp only [List.getElem?_cons_zero, Option.some.injEq] at hi
      subst hi
      simp only [Option.map_some', List.getElem?_cons_zero]
      exact ⟨_, rfl, rfl, rfl, rfl⟩
    | succ j =>
      simp only [List.getElem?_cons_succ] at hi ⊢
      exact hrest j e hi

/-- C7 fails on a message with an entity whose type is not UTF-8: the
serialization holds U+FFFD for the byte `0xFF`, and the decoded entity has that
type, not the type of the entity of `m`. -/
theorem entities_roundtrip_counterexample :
    badTypeMessage.Entities ≠ [] ∧
    (∀ p ∈ badTypeMessage.Entities, p ≠ none) ∧
    messageInRange badTypeMessage = true ∧
    badTypeMessage.Entities[0]? =
      some (some { Type_ := [.bad 0xFF], Offset := 0, Length := 2 }) ∧
    (decodeMessage {} (marshalMessage badTypeMessage)).1.Entities[0]? =
      some (some { Type_ := [.rune (Char.ofNat 0xFFFD)], Offset := 0, Length := 2 }) ∧
    ([GoRune.rune (Char.ofNat 0xFFFD)] : GoString) ≠ [GoRune.bad 0xFF] := by
  refine ⟨by decide, by decide, rfl, rfl, rfl, by decide⟩

/-- C7 as amended: for a message whose entities are non-empty and non-nil and
have types that are well-formed UTF-8, decoding its serialization into a
`Message` variable gives as many entities, and the `i`-th has the type, offset
and length of the `i`-th entity of the message. -/
theorem entities_roundtrip (m cur : Message) (hne : m.Entities ≠ [])
    (hnil : ∀ p ∈ m.Entities, p ≠ none) (hrange : messageInRange m = true)
    (htype : (m.Entities.all fun p =>
      match p with
      | none => true
      | some e => GoString.valid e.Type_) = true) :
    (decodeMessage cur (marshalMessage m)).1.Entities.length = m.Entities.length ∧
    ∀ i, i < m.Entities.length →
      ∃ e e' : MessageEntity, m.Entities[i]? = some (some e) ∧
        (decodeMessage cur (marshalMessage m)).1.Entities[i]? = some (some e') ∧
        e'.Type_ = e.Type_ ∧ e'.Offset = e.Offset ∧ e'.Length = e.Length := by
  simp only [messageInRange, Bool.and_eq_true] at hrange
  obtain ⟨hlen, hall⟩ := decodeElems_echo m.Entities cur.Entities hrange.2
  rw [decodeMessage_Entities cur m hne]
  refine ⟨hlen, ?_⟩
  intro i hi
  have hget : m.Entities[i]? = some (m.Entities[i]) := List.getElem?_eq_getElem hi
  cases hp : m.Entities[i] with
  | none => exact absurd hp (hnil _ (List.getElem_mem _))
  | some e =>
    rw [hp] at hget
    obtain ⟨e', he', h1, h2, h3⟩ := hall i e hget
    have hmem : some e ∈ m.Entities := hp ▸ List.getElem_mem _
    have hval : GoString.valid e.Type_ = true := by
      have := List.all_eq_true.mp htype (some e) hmem
      simpa using this
    rw [ofText_toText _ hval] at h1
    exact ⟨e, e', hget, he', h1, h2, h3⟩

/-- C7 as amended, at a message with two entities, decoded into a zero
`Message`. -/
theorem entities_roundtrip_witness :
    (decodeMessage {} (marshalMessage sampleEntityMessage)).1.Entities.length = 2 ∧
    ∀ i, i < 2 →
      ∃ e e' : MessageEntity, sampleEntityMessage.Entities[i]? = some (some e) ∧
        (decodeMessage {} (marshalMessage sampleEntityMessage)).1.Entities[i]? = some (some e') ∧
        e'.Type_ = e.Type_ ∧ e'.Offset = e.Offset ∧ e'.Length = e.Length :=
  entities_roundtrip sampleEntityMessage {} (by decide) (by decide) rfl rfl

end telegram
